import Mathlib

/-!
Verification development for the valu3 value library.

This file gives a shallow embedding of the core data model of the valu3
repository — the `Number` multi-width numeric box, the `Value` tagged union,
the dual-backing `Object` container, the JSON serializer and the JSON parser —
and proves the behavioural properties stated about them.

Modelling conventions:
* Machine integers are modelled as `Nat` (unsigned slots) and `Int` (signed
  slots); no arithmetic is performed on slot payloads, so wrap-around never
  matters, while the range checks performed by the string-parsing and
  `from_usize` conversions are modelled explicitly.
* `f32`/`f64` payloads are modelled by `FloatVal`: an exact decimal rational or
  one of the IEEE special values (infinities, NaN).  IEEE rounding is not
  modelled; none of the properties proved here depend on rounding, only on
  which slot of a `Number` is populated, on sign/zero tests and on the
  textual grammar accepted by `str::parse::<f64>`.
* Panicking Rust functions are modelled with `Except String`, the error
  carrying the panic message.
-/

namespace Valu3

/-- Model of an `f32`/`f64` payload: an exact decimal value or a special. -/
inductive FloatVal where
  | finite (q : ℚ)
  | inf (neg : Bool)
  | nan
  deriving DecidableEq, Repr

/-- `x == 0.0` on a float (both IEEE zeros collapse to `finite 0`). -/
def FloatVal.isZero : FloatVal → Bool
  | .finite q => q == 0
  | _ => false

/-- `x < 0.0` on a float (false for NaN, true for `-inf`). -/
def FloatVal.isNeg : FloatVal → Bool
  | .finite q => decide (q < 0)
  | .inf neg => neg
  | .nan => false

/-- Decimal rendering of an exact decimal rational, mirroring how Rust's
`Display` prints a float value that is exactly representable in decimal:
no trailing zeros, no decimal point for integral values. -/
def decimalString (q : ℚ) : String :=
  let e := ((List.range 400).find? (fun k => (q * (10 : ℚ) ^ k).den == 1)).getD 0
  let n := (q * (10 : ℚ) ^ e).num
  let sign := if n < 0 then "-" else ""
  let ds := (toString n.natAbs).data
  if e == 0 then sign ++ String.mk ds
  else
    let padded := if ds.length < e + 1 then List.replicate (e + 1 - ds.length) '0' ++ ds else ds
    sign ++ String.mk (padded.take (padded.length - e)) ++ "." ++
      String.mk (padded.drop (padded.length - e))

/-- Rendering of a float slot payload via `Display`. -/
def FloatVal.render : FloatVal → String
  | .finite q => decimalString q
  | .inf neg => if neg then "-inf" else "inf"
  | .nan => "NaN"

/-! ## The `Number` struct (src/valu3/src/types/number.rs)

A record of 12 optional slots, one per numeric width, exactly as in the
source.  `DecidableEq` models the derived `PartialEq` (slot-by-slot
structural comparison). -/

/-- `enum NumberType`: tag identifying the populated slot. -/
inductive NumberType where
  | U8 | U16 | U32 | U64 | U128
  | I8 | I16 | I32 | I64 | I128
  | F32 | F64
  | Unknown
  deriving DecidableEq, Repr

/-- `struct Number`: 12 optional slots, one per numeric width. -/
structure Number where
  u8 : Option Nat := none
  u16 : Option Nat := none
  u32 : Option Nat := none
  u64 : Option Nat := none
  u128 : Option Nat := none
  i8 : Option Int := none
  i16 : Option Int := none
  i32 : Option Int := none
  i64 : Option Int := none
  i128 : Option Int := none
  f32 : Option FloatVal := none
  f64 : Option FloatVal := none
  deriving DecidableEq, Repr

namespace Number

/-- `Number::clean`: resets every slot to `None`. -/
def clean (_n : Number) : Number :=
  { u8 := none, u16 := none, u32 := none, u64 := none, u128 := none,
    i8 := none, i16 := none, i32 := none, i64 := none, i128 := none,
    f32 := none, f64 := none }

/-- `set_u8` -/
def set_u8 (n : Number) (v : Nat) : Number := { n with u8 := some v }

/-- `set_u16` -/
def set_u16 (n : Number) (v : Nat) : Number := { n with u16 := some v }

/-- `set_u32` -/
def set_u32 (n : Number) (v : Nat) : Number := { n with u32 := some v }

/-- `set_u64` -/
def set_u64 (n : Number) (v : Nat) : Number := { n with u64 := some v }

/-- `set_u128` -/
def set_u128 (n : Number) (v : Nat) : Number := { n with u128 := some v }

/-- `set_i8` -/
def set_i8 (n : Number) (v : Int) : Number := { n with i8 := some v }

/-- `set_i16` -/
def set_i16 (n : Number) (v : Int) : Number := { n with i16 := some v }

/-- `set_i32` -/
def set_i32 (n : Number) (v : Int) : Number := { n with i32 := some v }

/-- `set_i64` -/
def set_i64 (n : Number) (v : Int) : Number := { n with i64 := some v }

/-- `set_i128` -/
def set_i128 (n : Number) (v : Int) : Number := { n with i128 := some v }

/-- `set_f32` -/
def set_f32 (n : Number) (v : FloatVal) : Number := { n with f32 := some v }

/-- `set_f64` -/
def set_f64 (n : Number) (v : FloatVal) : Number := { n with f64 := some v }

/-- `is_i8` etc.: `slot.is_some()`. -/
def is_i8 (n : Number) : Bool := n.i8.isSome

def is_i16 (n : Number) : Bool := n.i16.isSome

def is_i32 (n : Number) : Bool := n.i32.isSome

def is_i64 (n : Number) : Bool := n.i64.isSome

def is_i128 (n : Number) : Bool := n.i128.isSome

def is_u8 (n : Number) : Bool := n.u8.isSome

def is_u16 (n : Number) : Bool := n.u16.isSome

def is_u32 (n : Number) : Bool := n.u32.isSome

def is_u64 (n : Number) : Bool := n.u64.isSome

def is_u128 (n : Number) : Bool := n.u128.isSome

def is_f32 (n : Number) : Bool := n.f32.isSome

def is_f64 (n : Number) : Bool := n.f64.isSome

/-- `is_number`: any slot populated. -/
def is_number (n : Number) : Bool :=
  n.is_i8 || n.is_i16 || n.is_i32 || n.is_i64 || n.is_i128 ||
  n.is_u8 || n.is_u16 || n.is_u32 || n.is_u64 || n.is_u128 ||
  n.is_f32 || n.is_f64

/-- `is_integer` -/
def is_integer (n : Number) : Bool :=
  n.is_i8 || n.is_i16 || n.is_i32 || n.is_i64 || n.is_i128 ||
  n.is_u8 || n.is_u16 || n.is_u32 || n.is_u64 || n.is_u128

/-- `is_float` -/
def is_float (n : Number) : Bool := n.is_f32 || n.is_f64

/-- `slot.is_some() && slot.unwrap() < 0` for an integer slot. -/
def optNegInt : Option Int → Bool
  | some v => decide (v < 0)
  | none => false

/-- `slot.is_some() && slot.unwrap() < 0.0` for a float slot. -/
def optNegFloat : Option FloatVal → Bool
  | some v => v.isNeg
  | none => false

/-- `is_signed`: a signed-integer or float slot holds a negative value. -/
def is_signed (n : Number) : Bool :=
  optNegInt n.i8 || optNegInt n.i16 || optNegInt n.i32 || optNegInt n.i64 ||
  optNegInt n.i128 || optNegFloat n.f32 || optNegFloat n.f64

/-- `is_unsigned` -/
def is_unsigned (n : Number) : Bool :=
  n.is_u8 || n.is_u16 || n.is_u32 || n.is_u64 || n.is_u128

/-- `slot.is_some() && slot.unwrap() == 0` for a Nat slot. -/
def optZeroNat : Option Nat → Bool
  | some v => v == 0
  | none => false

/-- `slot.is_some() && slot.unwrap() == 0` for an Int slot. -/
def optZeroInt : Option Int → Bool
  | some v => v == 0
  | none => false

/-- `slot.is_some() && slot.unwrap() == 0.0` for a float slot. -/
def optZeroFloat : Option FloatVal → Bool
  | some v => v.isZero
  | none => false

/-- `is_zero` -/
def is_zero (n : Number) : Bool :=
  optZeroInt n.i8 || optZeroInt n.i16 || optZeroInt n.i32 || optZeroInt n.i64 ||
  optZeroInt n.i128 || optZeroFloat n.f32 || optZeroFloat n.f64 ||
  optZeroNat n.u8 || optZeroNat n.u16 || optZeroNat n.u32 || optZeroNat n.u64 ||
  optZeroNat n.u128

/-- `is_positive`: `!is_signed() && !is_zero()`. -/
def is_positive (n : Number) : Bool := !n.is_signed && !n.is_zero

/-- `is_negative`: `is_signed() && !is_zero()`. -/
def is_negative (n : Number) : Bool := n.is_signed && !n.is_zero

/-- `number_type`: resolves the populated slot in the source's fixed
priority order (i8, i16, i32, i64, i128, u8, u16, u32, u64, u128, f32, f64). -/
def number_type (n : Number) : NumberType :=
  if n.is_i8 then .I8
  else if n.is_i16 then .I16
  else if n.is_i32 then .I32
  else if n.is_i64 then .I64
  else if n.is_i128 then .I128
  else if n.is_u8 then .U8
  else if n.is_u16 then .U16
  else if n.is_u32 then .U32
  else if n.is_u64 then .U64
  else if n.is_u128 then .U128
  else if n.is_f32 then .F32
  else if n.is_f64 then .F64
  else .Unknown

/-- Number of populated slots. -/
def popCount (n : Number) : Nat :=
  (cond n.u8.isSome 1 0) + (cond n.u16.isSome 1 0) + (cond n.u32.isSome 1 0) +
  (cond n.u64.isSome 1 0) + (cond n.u128.isSome 1 0) + (cond n.i8.isSome 1 0) +
  (cond n.i16.isSome 1 0) + (cond n.i32.isSome 1 0) + (cond n.i64.isSome 1 0) +
  (cond n.i128.isSome 1 0) + (cond n.f32.isSome 1 0) + (cond n.f64.isSome 1 0)

end Number

/-! `impl Display for Number` (src/valu3/src/types/number.rs, lines 605-777).
The source matches the record against 12 disjoint patterns, each demanding
exactly one slot `Some` and the other eleven `None`, falling through to
`"Unknown"`.  The patterns are tested in source order (i32, i64, f64, f32,
u8, u16, u32, u64, u128, i8, i16, i128); being mutually disjoint, the order
does not affect the result.  Each arm is rendered here as a guarded branch
whose condition is the exact pattern condition. -/

/-- Pattern condition of a `Display` arm: the given slot is the only one
populated (stated for the i32 arm; the other arms permute the fields). -/
def onlyI32 (n : Number) : Prop :=
  n.i32.isSome = true ∧ n.i64 = none ∧ n.f64 = none ∧ n.f32 = none ∧
  n.u8 = none ∧ n.u16 = none ∧ n.u32 = none ∧ n.u64 = none ∧ n.u128 = none ∧
  n.i8 = none ∧ n.i16 = none ∧ n.i128 = none

def onlyI64 (n : Number) : Prop :=
  n.i32 = none ∧ n.i64.isSome = true ∧ n.f64 = none ∧ n.f32 = none ∧
  n.u8 = none ∧ n.u16 = none ∧ n.u32 = none ∧ n.u64 = none ∧ n.u128 = none ∧
  n.i8 = none ∧ n.i16 = none ∧ n.i128 = none

def onlyF64 (n : Number) : Prop :=
  n.i32 = none ∧ n.i64 = none ∧ n.f64.isSome = true ∧ n.f32 = none ∧
  n.u8 = none ∧ n.u16 = none ∧ n.u32 = none ∧ n.u64 = none ∧ n.u128 = none ∧
  n.i8 = none ∧ n.i16 = none ∧ n.i128 = none

def onlyF32 (n : Number) : Prop :=
  n.i32 = none ∧ n.i64 = none ∧ n.f64 = none ∧ n.f32.isSome = true ∧
  n.u8 = none ∧ n.u16 = none ∧ n.u32 = none ∧ n.u64 = none ∧ n.u128 = none ∧
  n.i8 = none ∧ n.i16 = none ∧ n.i128 = none

def onlyU8 (n : Number) : Prop :=
  n.i32 = none ∧ n.i64 = none ∧ n.f64 = none ∧ n.f32 = none ∧
  n.u8.isSome = true ∧ n.u16 = none ∧ n.u32 = none ∧ n.u64 = none ∧ n.u128 = none ∧
  n.i8 = none ∧ n.i16 = none ∧ n.i128 = none

def onlyU16 (n : Number) : Prop :=
  n.i32 = none ∧ n.i64 = none ∧ n.f64 = none ∧ n.f32 = none ∧
  n.u8 = none ∧ n.u16.isSome = true ∧ n.u32 = none ∧ n.u64 = none ∧ n.u128 = none ∧
  n.i8 = none ∧ n.i16 = none ∧ n.i128 = none

def onlyU32 (n : Number) : Prop :=
  n.i32 = none ∧ n.i64 = none ∧ n.f64 = none ∧ n.f32 = none ∧
  n.u8 = none ∧ n.u16 = none ∧ n.u32.isSome = true ∧ n.u64 = none ∧ n.u128 = none ∧
  n.i8 = none ∧ n.i16 = none ∧ n.i128 = none

def onlyU64 (n : Number) : Prop :=
  n.i32 = none ∧ n.i64 = none ∧ n.f64 = none ∧ n.f32 = none ∧
  n.u8 = none ∧ n.u16 = none ∧ n.u32 = none ∧ n.u64.isSome = true ∧ n.u128 = none ∧
  n.i8 = none ∧ n.i16 = none ∧ n.i128 = none

def onlyU128 (n : Number) : Prop :=
  n.i32 = none ∧ n.i64 = none ∧ n.f64 = none ∧ n.f32 = none ∧
  n.u8 = none ∧ n.u16 = none ∧ n.u32 = none ∧ n.u64 = none ∧ n.u128.isSome = true ∧
  n.i8 = none ∧ n.i16 = none ∧ n.i128 = none

def onlyI8 (n : Number) : Prop :=
  n.i32 = none ∧ n.i64 = none ∧ n.f64 = none ∧ n.f32 = none ∧
  n.u8 = none ∧ n.u16 = none ∧ n.u32 = none ∧ n.u64 = none ∧ n.u128 = none ∧
  n.i8.isSome = true ∧ n.i16 = none ∧ n.i128 = none

def onlyI16 (n : Number) : Prop :=
  n.i32 = none ∧ n.i64 = none ∧ n.f64 = none ∧ n.f32 = none ∧
  n.u8 = none ∧ n.u16 = none ∧ n.u32 = none ∧ n.u64 = none ∧ n.u128 = none ∧
  n.i8 = none ∧ n.i16.isSome = true ∧ n.i128 = none

def onlyI128 (n : Number) : Prop :=
  n.i32 = none ∧ n.i64 = none ∧ n.f64 = none ∧ n.f32 = none ∧
  n.u8 = none ∧ n.u16 = none ∧ n.u32 = none ∧ n.u64 = none ∧ n.u128 = none ∧
  n.i8 = none ∧ n.i16 = none ∧ n.i128.isSome = true

instance (n : Number) : Decidable (onlyI32 n) := by unfold onlyI32; infer_instance
instance (n : Number) : Decidable (onlyI64 n) := by unfold onlyI64; infer_instance
instance (n : Number) : Decidable (onlyF64 n) := by unfold onlyF64; infer_instance
instance (n : Number) : Decidable (onlyF32 n) := by unfold onlyF32; infer_instance
instance (n : Number) : Decidable (onlyU8 n) := by unfold onlyU8; infer_instance
instance (n : Number) : Decidable (onlyU16 n) := by unfold onlyU16; infer_instance
instance (n : Number) : Decidable (onlyU32 n) := by unfold onlyU32; infer_instance
instance (n : Number) : Decidable (onlyU64 n) := by unfold onlyU64; infer_instance
instance (n : Number) : Decidable (onlyU128 n) := by unfold onlyU128; infer_instance
instance (n : Number) : Decidable (onlyI8 n) := by unfold onlyI8; infer_instance
instance (n : Number) : Decidable (onlyI16 n) := by unfold onlyI16; infer_instance
instance (n : Number) : Decidable (onlyI128 n) := by unfold onlyI128; infer_instance

/-- `impl Display for Number`: the 12-arm pattern match with `"Unknown"`
default, arm by arm in source order. -/
def Number.display (n : Number) : String :=
  if h : onlyI32 n then toString (n.i32.get h.1)
  else if h : onlyI64 n then toString (n.i64.get h.2.1)
  else if h : onlyF64 n then (n.f64.get h.2.2.1).render
  else if h : onlyF32 n then (n.f32.get h.2.2.2.1).render
  else if h : onlyU8 n then toString (n.u8.get h.2.2.2.2.1)
  else if h : onlyU16 n then toString (n.u16.get h.2.2.2.2.2.1)
  else if h : onlyU32 n then toString (n.u32.get h.2.2.2.2.2.2.1)
  else if h : onlyU64 n then toString (n.u64.get h.2.2.2.2.2.2.2.1)
  else if h : onlyU128 n then toString (n.u128.get h.2.2.2.2.2.2.2.2.1)
  else if h : onlyI8 n then toString (n.i8.get h.2.2.2.2.2.2.2.2.2.1)
  else if h : onlyI16 n then toString (n.i16.get h.2.2.2.2.2.2.2.2.2.2.1)
  else if h : onlyI128 n then toString (n.i128.get h.2.2.2.2.2.2.2.2.2.2.2)
  else "Unknown"

/-! `From` conversions for each width (lines 784-901). -/

def Number.from_u8 (v : Nat) : Number := { u8 := some v }

def Number.from_u16 (v : Nat) : Number := { u16 := some v }

def Number.from_u32 (v : Nat) : Number := { u32 := some v }

def Number.from_u64 (v : Nat) : Number := { u64 := some v }

def Number.from_u128 (v : Nat) : Number := { u128 := some v }

def Number.from_i8 (v : Int) : Number := { i8 := some v }

def Number.from_i16 (v : Int) : Number := { i16 := some v }

def Number.from_i32 (v : Int) : Number := { i32 := some v }

def Number.from_i64 (v : Int) : Number := { i64 := some v }

def Number.from_i128 (v : Int) : Number := { i128 := some v }

def Number.from_f32 (v : FloatVal) : Number := { f32 := some v }

def Number.from_f64 (v : FloatVal) : Number := { f64 := some v }

/-! ## Models of Rust's `str::parse` for the numeric widths

`str::parse::<iN>`/`<uN>` accepts an optional ASCII sign followed by one or
more ASCII digits, and fails on overflow.  A `-` prefix on an unsigned type
is accepted only for value 0 (the accumulation via `checked_sub` succeeds
exactly then).  `str::parse::<f64>` accepts, after an optional sign,
`inf`/`infinity`/`nan` case-insensitively or a decimal mantissa
(`d+ | d+.d* | d*.d+`) with an optional `e`/`E` exponent. -/

/-- Strip one leading ASCII sign; returns (isNegative, rest). -/
def stripSign : List Char → Bool × List Char
  | '+' :: cs => (false, cs)
  | '-' :: cs => (true, cs)
  | cs => (false, cs)

/-- A nonempty all-digit run to its value. -/
def digitsToNat? (cs : List Char) : Option Nat :=
  if cs.isEmpty then none
  else if cs.all (fun c => c.isDigit) then
    some (cs.foldl (fun a c => a * 10 + (c.toNat - 48)) 0)
  else none

/-- Model of `str::parse` for an integer type with range `[lo, hi]`. -/
def parseIntIn (lo hi : Int) (s : String) : Option Int :=
  let p := stripSign s.data
  match digitsToNat? p.2 with
  | none => none
  | some m =>
    let v : Int := if p.1 then -(m : Int) else (m : Int)
    if lo ≤ v ∧ v ≤ hi then some v else none

def parseI8 (s : String) : Option Int := parseIntIn (-(2 ^ 7)) (2 ^ 7 - 1) s

def parseI16 (s : String) : Option Int := parseIntIn (-(2 ^ 15)) (2 ^ 15 - 1) s

def parseI32 (s : String) : Option Int := parseIntIn (-(2 ^ 31)) (2 ^ 31 - 1) s

def parseI64 (s : String) : Option Int := parseIntIn (-(2 ^ 63)) (2 ^ 63 - 1) s

def parseI128 (s : String) : Option Int := parseIntIn (-(2 ^ 127)) (2 ^ 127 - 1) s

/-- Unsigned parse: range `[0, hi]` (a `-` sign only admits value 0). -/
def parseUIn (hi : Int) (s : String) : Option Nat :=
  (parseIntIn 0 hi s).map Int.toNat

def parseU8 (s : String) : Option Nat := parseUIn (2 ^ 8 - 1) s

def parseU16 (s : String) : Option Nat := parseUIn (2 ^ 16 - 1) s

def parseU32 (s : String) : Option Nat := parseUIn (2 ^ 32 - 1) s

def parseU64 (s : String) : Option Nat := parseUIn (2 ^ 64 - 1) s

def parseU128 (s : String) : Option Nat := parseUIn (2 ^ 128 - 1) s

/-- Mantissa-with-exponent to an exact decimal value. -/
def mkDecimal (neg : Bool) (mantissa : Nat) (fracLen : Nat) (ex : Int) : FloatVal :=
  let m : ℚ := (mantissa : ℚ) * (10 : ℚ) ^ (ex - (fracLen : Int))
  .finite (if neg then -m else m)

/-- Exponent part after `e`/`E`: signed digit run. -/
def parseExpPart (cs : List Char) : Option Int :=
  let p := stripSign cs
  (digitsToNat? p.2).map (fun m => if p.1 then -(m : Int) else (m : Int))

/-- Decimal mantissa (`d+ | d+.d* | d*.d+`) with optional exponent. -/
def parseMantissa (neg : Bool) (cs : List Char) : Option FloatVal :=
  let ip := cs.takeWhile (fun c => c.isDigit)
  let rest1 := cs.dropWhile (fun c => c.isDigit)
  let hasDot := rest1.head? = some '.'
  let fp := if hasDot then rest1.tail.takeWhile (fun c => c.isDigit) else []
  let rest2 := if hasDot then rest1.tail.dropWhile (fun c => c.isDigit) else rest1
  if ip.isEmpty && fp.isEmpty then none
  else
    let m := (ip ++ fp).foldl (fun a c => a * 10 + (c.toNat - 48)) 0
    match rest2 with
    | [] => some (mkDecimal neg m fp.length 0)
    | e :: t =>
      if e = 'e' ∨ e = 'E' then
        (parseExpPart t).map (fun ex => mkDecimal neg m fp.length ex)
      else none

/-- Model of `str::parse::<f64>`. -/
def parseF64 (s : String) : Option FloatVal :=
  let p := stripSign s.data
  let lcs := p.2.map Char.toLower
  if lcs = ['i', 'n', 'f'] ∨ lcs = ['i', 'n', 'f', 'i', 'n', 'i', 't', 'y'] then
    some (.inf p.1)
  else if lcs = ['n', 'a', 'n'] then some .nan
  else parseMantissa p.1 p.2

/-- Model of `str::parse::<f32>`: same textual grammar as `f64` (the two
differ only in rounding, which is not modelled). -/
def parseF32 (s : String) : Option FloatVal := parseF64 s

/-- `enum Error` (src/valu3/src/lib.rs). -/
inductive Error where
  | NonParsebleMsg (msg : String)
  | NonParseble
  | NotNumber
  deriving DecidableEq, Repr

/-- `impl TryFrom<&str> for Number` (lines 947-989): the nested cascade
trying i32, f64, i8, i16, i64, i128, u8, u16, u32, u64, u128, f32 and
returning the first success, else `Err(Error::NotNumber)`. -/
def Number.try_from (s : String) : Except Error Number :=
  match parseI32 s with
  | some v => .ok (Number.from_i32 v)
  | none => match parseF64 s with
    | some v => .ok (Number.from_f64 v)
    | none => match parseI8 s with
      | some v => .ok (Number.from_i8 v)
      | none => match parseI16 s with
        | some v => .ok (Number.from_i16 v)
        | none => match parseI64 s with
          | some v => .ok (Number.from_i64 v)
          | none => match parseI128 s with
            | some v => .ok (Number.from_i128 v)
            | none => match parseU8 s with
              | some v => .ok (Number.from_u8 v)
              | none => match parseU16 s with
                | some v => .ok (Number.from_u16 v)
                | none => match parseU32 s with
                  | some v => .ok (Number.from_u32 v)
                  | none => match parseU64 s with
                    | some v => .ok (Number.from_u64 v)
                    | none => match parseU128 s with
                      | some v => .ok (Number.from_u128 v)
                      | none => match parseF32 s with
                        | some v => .ok (Number.from_f32 v)
                        | none => .error Error.NotNumber

/-- `impl From<usize> for Number` (lines 904-922), on a 64-bit target
(`usize = u64`).  The guards compare against `T::MAX as usize`; the casts
evaluate to: `u8 → 255`, `u16 → 65535`, `u32 → 2^32-1`, `u64 → 2^64-1`,
`u128::MAX as usize → 2^64-1` (truncating), `i8 → 127`, `i16 → 2^15-1`,
`i32 → 2^31-1`, `i64 → 2^63-1`, `i128::MAX as usize → 2^64-1` (truncating),
`f32::MAX as usize → 2^64-1` and `f64::MAX as usize → 2^64-1` (saturating). -/
def Number.from_usize (i : Nat) : Number :=
  if i ≤ 2 ^ 8 - 1 then Number.from_u8 i
  else if i ≤ 2 ^ 16 - 1 then Number.from_u16 i
  else if i ≤ 2 ^ 32 - 1 then Number.from_u32 i
  else if i ≤ 2 ^ 64 - 1 then Number.from_u64 i
  else if i ≤ 2 ^ 64 - 1 then Number.from_u128 i
  else if i ≤ 2 ^ 7 - 1 then Number.from_i8 i
  else if i ≤ 2 ^ 15 - 1 then Number.from_i16 i
  else if i ≤ 2 ^ 31 - 1 then Number.from_i32 i
  else if i ≤ 2 ^ 63 - 1 then Number.from_i64 i
  else if i ≤ 2 ^ 64 - 1 then Number.from_i128 i
  else if i ≤ 2 ^ 64 - 1 then Number.from_f32 (.finite i)
  else if i ≤ 2 ^ 64 - 1 then Number.from_f64 (.finite i)
  else Number.from_f64 (.finite i)

/-- Spec-side: the first type in the order u8, u16, u32, u64, u128, i8, i16,
i32, i64, i128, f32, f64 whose maximum value is ≥ the input (the claim's
reading of `From<usize>`; `f32::MAX`/`f64::MAX` exceed every `usize`). -/
def firstFittingType (i : Nat) : NumberType :=
  if i ≤ 2 ^ 8 - 1 then .U8
  else if i ≤ 2 ^ 16 - 1 then .U16
  else if i ≤ 2 ^ 32 - 1 then .U32
  else if i ≤ 2 ^ 64 - 1 then .U64
  else if i ≤ 2 ^ 128 - 1 then .U128
  else .F32

/-- Spec-side: decimal rendering of the populated slot of a `Number`
holding exactly one value (order of inspection is irrelevant then). -/
def renderPopulated (n : Number) : String :=
  if h : n.u8.isSome then toString (n.u8.get h)
  else if h : n.u16.isSome then toString (n.u16.get h)
  else if h : n.u32.isSome then toString (n.u32.get h)
  else if h : n.u64.isSome then toString (n.u64.get h)
  else if h : n.u128.isSome then toString (n.u128.get h)
  else if h : n.i8.isSome then toString (n.i8.get h)
  else if h : n.i16.isSome then toString (n.i16.get h)
  else if h : n.i32.isSome then toString (n.i32.get h)
  else if h : n.i64.isSome then toString (n.i64.get h)
  else if h : n.i128.isSome then toString (n.i128.get h)
  else if h : n.f32.isSome then (n.f32.get h).render
  else if h : n.f64.isSome then (n.f64.get h).render
  else "Unknown"

lemma onlyI32_pop {n : Number} (h : onlyI32 n) : n.popCount = 1 := by
  obtain ⟨h1, h2, h3, h4, h5, h6, h7, h8, h9, h10, h11, h12⟩ := h
  simp [Number.popCount, h1, h2, h3, h4, h5, h6, h7, h8, h9, h10, h11, h12]

lemma onlyI64_pop {n : Number} (h : onlyI64 n) : n.popCount = 1 := by
  obtain ⟨h1, h2, h3, h4, h5, h6, h7, h8, h9, h10, h11, h12⟩ := h
  simp [Number.popCount, h1, h2, h3, h4, h5, h6, h7, h8, h9, h10, h11, h12]

lemma onlyF64_pop {n : Number} (h : onlyF64 n) : n.popCount = 1 := by
  obtain ⟨h1, h2, h3, h4, h5, h6, h7, h8, h9, h10, h11, h12⟩ := h
  simp [Number.popCount, h1, h2, h3, h4, h5, h6, h7, h8, h9, h10, h11, h12]

lemma onlyF32_pop {n : Number} (h : onlyF32 n) : n.popCount = 1 := by
  obtain ⟨h1, h2, h3, h4, h5, h6, h7, h8, h9, h10, h11, h12⟩ := h
  simp [Number.popCount, h1, h2, h3, h4, h5, h6, h7, h8, h9, h10, h11, h12]

lemma onlyU8_pop {n : Number} (h : onlyU8 n) : n.popCount = 1 := by
  obtain ⟨h1, h2, h3, h4, h5, h6, h7, h8, h9, h10, h11, h12⟩ := h
  simp [Number.popCount, h1, h2, h3, h4, h5, h6, h7, h8, h9, h10, h11, h12]

lemma onlyU16_pop {n : Number} (h : onlyU16 n) : n.popCount = 1 := by
  obtain ⟨h1, h2, h3, h4, h5, h6, h7, h8, h9, h10, h11, h12⟩ := h
  simp [Number.popCount, h1, h2, h3, h4, h5, h6, h7, h8, h9, h10, h11, h12]

lemma onlyU32_pop {n : Number} (h : onlyU32 n) : n.popCount = 1 := by
  obtain ⟨h1, h2, h3, h4, h5, h6, h7, h8, h9, h10, h11, h12⟩ := h
  simp [Number.popCount, h1, h2, h3, h4, h5, h6, h7, h8, h9, h10, h11, h12]

lemma onlyU64_pop {n : Number} (h : onlyU64 n) : n.popCount = 1 := by
  obtain ⟨h1, h2, h3, h4, h5, h6, h7, h8, h9, h10, h11, h12⟩ := h
  simp [Number.popCount, h1, h2, h3, h4, h5, h6, h7, h8, h9, h10, h11, h12]

lemma onlyU128_pop {n : Number} (h : onlyU128 n) : n.popCount = 1 := by
  obtain ⟨h1, h2, h3, h4, h5, h6, h7, h8, h9, h10, h11, h12⟩ := h
  simp [Number.popCount, h1, h2, h3, h4, h5, h6, h7, h8, h9, h10, h11, h12]

lemma onlyI8_pop {n : Number} (h : onlyI8 n) : n.popCount = 1 := by
  obtain ⟨h1, h2, h3, h4, h5, h6, h7, h8, h9, h10, h11, h12⟩ := h
  simp [Number.popCount, h1, h2, h3, h4, h5, h6, h7, h8, h9, h10, h11, h12]

lemma onlyI16_pop {n : Number} (h : onlyI16 n) : n.popCount = 1 := by
  obtain ⟨h1, h2, h3, h4, h5, h6, h7, h8, h9, h10, h11, h12⟩ := h
  simp [Number.popCount, h1, h2, h3, h4, h5, h6, h7, h8, h9, h10, h11, h12]

lemma onlyI128_pop {n : Number} (h : onlyI128 n) : n.popCount = 1 := by
  obtain ⟨h1, h2, h3, h4, h5, h6, h7, h8, h9, h10, h11, h12⟩ := h
  simp [Number.popCount, h1, h2, h3, h4, h5, h6, h7, h8, h9, h10, h11, h12]

/-- C3: after any `clean().set_X(v)` sequence, the slot for `X` is populated,
exactly one slot is populated in total (so exactly one `is_*` predicate is
true, the one for `X`), and `number_type()` returns the tag for `X` — for
each of the 12 widths. -/
theorem number_clean_set_single_slot :
    (∀ (n : Number) (v : Nat), ((n.clean).set_u8 v).is_u8 = true ∧
      ((n.clean).set_u8 v).popCount = 1 ∧ ((n.clean).set_u8 v).number_type = .U8) ∧
    (∀ (n : Number) (v : Nat), ((n.clean).set_u16 v).is_u16 = true ∧
      ((n.clean).set_u16 v).popCount = 1 ∧ ((n.clean).set_u16 v).number_type = .U16) ∧
    (∀ (n : Number) (v : Nat), ((n.clean).set_u32 v).is_u32 = true ∧
      ((n.clean).set_u32 v).popCount = 1 ∧ ((n.clean).set_u32 v).number_type = .U32) ∧
    (∀ (n : Number) (v : Nat), ((n.clean).set_u64 v).is_u64 = true ∧
      ((n.clean).set_u64 v).popCount = 1 ∧ ((n.clean).set_u64 v).number_type = .U64) ∧
    (∀ (n : Number) (v : Nat), ((n.clean).set_u128 v).is_u128 = true ∧
      ((n.clean).set_u128 v).popCount = 1 ∧ ((n.clean).set_u128 v).number_type = .U128) ∧
    (∀ (n : Number) (v : Int), ((n.clean).set_i8 v).is_i8 = true ∧
      ((n.clean).set_i8 v).popCount = 1 ∧ ((n.clean).set_i8 v).number_type = .I8) ∧
    (∀ (n : Number) (v : Int), ((n.clean).set_i16 v).is_i16 = true ∧
      ((n.clean).set_i16 v).popCount = 1 ∧ ((n.clean).set_i16 v).number_type = .I16) ∧
    (∀ (n : Number) (v : Int), ((n.clean).set_i32 v).is_i32 = true ∧
      ((n.clean).set_i32 v).popCount = 1 ∧ ((n.clean).set_i32 v).number_type = .I32) ∧
    (∀ (n : Number) (v : Int), ((n.clean).set_i64 v).is_i64 = true ∧
      ((n.clean).set_i64 v).popCount = 1 ∧ ((n.clean).set_i64 v).number_type = .I64) ∧
    (∀ (n : Number) (v : Int), ((n.clean).set_i128 v).is_i128 = true ∧
      ((n.clean).set_i128 v).popCount = 1 ∧ ((n.clean).set_i128 v).number_type = .I128) ∧
    (∀ (n : Number) (v : FloatVal), ((n.clean).set_f32 v).is_f32 = true ∧
      ((n.clean).set_f32 v).popCount = 1 ∧ ((n.clean).set_f32 v).number_type = .F32) ∧
    (∀ (n : Number) (v : FloatVal), ((n.clean).set_f64 v).is_f64 = true ∧
      ((n.clean).set_f64 v).popCount = 1 ∧ ((n.clean).set_f64 v).number_type = .F64) := by
  refine ⟨?_, ?_, ?_, ?_, ?_, ?_, ?_, ?_, ?_, ?_, ?_, ?_⟩ <;>
    exact fun n v => ⟨rfl, rfl, rfl⟩

/-- C9: for the empty `Number` (all 12 slots `None`), `is_positive()` is true
and `is_negative()` is false even though `is_number()` is false, because
`is_positive` is `!is_signed && !is_zero` and both are false on no slots. -/
theorem number_empty_positive :
    Number.is_positive {} = true ∧ Number.is_negative {} = false ∧
    Number.is_number {} = false ∧ Number.is_signed {} = false ∧
    Number.is_zero {} = false :=
  ⟨rfl, rfl, rfl, rfl, rfl⟩

/-- C2: `Number::try_from(&str)` tries the parses in the exact order
i32, f64, i8, i16, i64, i128, u8, u16, u32, u64, u128, f32 and returns the
first success; a string failing all twelve yields `Err(Error::NotNumber)`;
`"300"` populates only the i32 slot and `"3.14"` only the f64 slot. -/
theorem number_try_from_order :
    (∀ s v, parseI32 s = some v → Number.try_from s = .ok (Number.from_i32 v)) ∧
    (∀ s v, parseI32 s = none → parseF64 s = some v →
      Number.try_from s = .ok (Number.from_f64 v)) ∧
    (∀ s v, parseI32 s = none → parseF64 s = none → parseI8 s = some v →
      Number.try_from s = .ok (Number.from_i8 v)) ∧
    (∀ s v, parseI32 s = none → parseF64 s = none → parseI8 s = none →
      parseI16 s = some v → Number.try_from s = .ok (Number.from_i16 v)) ∧
    (∀ s v, parseI32 s = none → parseF64 s = none → parseI8 s = none →
      parseI16 s = none → parseI64 s = some v →
      Number.try_from s = .ok (Number.from_i64 v)) ∧
    (∀ s v, parseI32 s = none → parseF64 s = none → parseI8 s = none →
      parseI16 s = none → parseI64 s = none → parseI128 s = some v →
      Number.try_from s = .ok (Number.from_i128 v)) ∧
    (∀ s v, parseI32 s = none → parseF64 s = none → parseI8 s = none →
      parseI16 s = none → parseI64 s = none → parseI128 s = none →
      parseU8 s = some v → Number.try_from s = .ok (Number.from_u8 v)) ∧
    (∀ s v, parseI32 s = none → parseF64 s = none → parseI8 s = none →
      parseI16 s = none → parseI64 s = none → parseI128 s = none →
      parseU8 s = none → parseU16 s = some v →
      Number.try_from s = .ok (Number.from_u16 v)) ∧
    (∀ s v, parseI32 s = none → parseF64 s = none → parseI8 s = none →
      parseI16 s = none → parseI64 s = none → parseI128 s = none →
      parseU8 s = none → parseU16 s = none → parseU32 s = some v →
      Number.try_from s = .ok (Number.from_u32 v)) ∧
    (∀ s v, parseI32 s = none → parseF64 s = none → parseI8 s = none →
      parseI16 s = none → parseI64 s = none → parseI128 s = none →
      parseU8 s = none → parseU16 s = none → parseU32 s = none →
      parseU64 s = some v → Number.try_from s = .ok (Number.from_u64 v)) ∧
    (∀ s v, parseI32 s = none → parseF64 s = none → parseI8 s = none →
      parseI16 s = none → parseI64 s = none → parseI128 s = none →
      parseU8 s = none → parseU16 s = none → parseU32 s = none →
      parseU64 s = none → parseU128 s = some v →
      Number.try_from s = .ok (Number.from_u128 v)) ∧
    (∀ s v, parseI32 s = none → parseF64 s = none → parseI8 s = none →
      parseI16 s = none → parseI64 s = none → parseI128 s = none →
      parseU8 s = none → parseU16 s = none → parseU32 s = none →
      parseU64 s = none → parseU128 s = none → parseF32 s = some v →
      Number.try_from s = .ok (Number.from_f32 v)) ∧
    (∀ s, parseI32 s = none → parseF64 s = none → parseI8 s = none →
      parseI16 s = none → parseI64 s = none → parseI128 s = none →
      parseU8 s = none → parseU16 s = none → parseU32 s = none →
      parseU64 s = none → parseU128 s = none → parseF32 s = none →
      Number.try_from s = .error Error.NotNumber) ∧
    Number.try_from "300" = .ok { i32 := some 300 } ∧
    Number.try_from "3.14" = .ok (Number.from_f64 (mkDecimal false 314 2 0)) := by
  refine ⟨?_, ?_, ?_, ?_, ?_, ?_, ?_, ?_, ?_, ?_, ?_, ?_, ?_, by rfl, by rfl⟩ <;>
    · intros
      simp_all [Number.try_from]

/-- Witness for C2 at concrete inputs: `"300"` takes the first (i32) branch,
and `"zzz"` fails every parse, giving `NotNumber`. -/
theorem number_try_from_order_witness :
    Number.try_from "300" = .ok (Number.from_i32 300) ∧
    Number.try_from "zzz" = .error Error.NotNumber :=
  ⟨number_try_from_order.1 "300" 300 (by rfl),
    number_try_from_order.2.2.2.2.2.2.2.2.2.2.2.2.1 "zzz" (by rfl) (by rfl) (by rfl)
      (by rfl) (by rfl) (by rfl) (by rfl) (by rfl) (by rfl) (by rfl) (by rfl) (by rfl)⟩

/-- C6: `Number::from(usize)` populates exactly one slot, namely that of the
first type in the order u8, u16, u32, u64, u128, i8, …, f64 whose maximum is
≥ the input; for every representable `usize` the result is an unsigned slot
(the signed and float branches are unreachable). -/
theorem number_from_usize_first_fit (i : Nat) (h : i < 2 ^ 64) :
    (Number.from_usize i).popCount = 1 ∧
    (Number.from_usize i).is_unsigned = true ∧
    (Number.from_usize i).number_type = firstFittingType i := by
  unfold Number.from_usize firstFittingType
  rcases le_or_lt i (2 ^ 8 - 1) with h1 | h1
  · simp only [h1, if_pos]
    exact ⟨rfl, rfl, rfl⟩
  · rcases le_or_lt i (2 ^ 16 - 1) with h2 | h2
    · rw [if_neg (by omega), if_pos h2, if_neg (by omega), if_pos h2]
      exact ⟨rfl, rfl, rfl⟩
    · rcases le_or_lt i (2 ^ 32 - 1) with h3 | h3
      · rw [if_neg (by omega), if_neg (by omega), if_pos h3,
          if_neg (by omega), if_neg (by omega), if_pos h3]
        exact ⟨rfl, rfl, rfl⟩
      · rw [if_neg (by omega), if_neg (by omega), if_neg (by omega),
          if_pos (by omega), if_neg (by omega), if_neg (by omega),
          if_neg (by omega), if_pos (by omega)]
        exact ⟨rfl, rfl, rfl⟩

/-- Witness for C6 at `i = 300`: one populated slot, unsigned, type `U16`. -/
theorem number_from_usize_first_fit_witness :
    (Number.from_usize 300).popCount = 1 ∧
    (Number.from_usize 300).is_unsigned = true ∧
    (Number.from_usize 300).number_type = firstFittingType 300 :=
  number_from_usize_first_fit 300 (by decide)

/-- C7: `Display` for `Number` prints the decimal rendering of the single
populated slot when exactly one of the 12 slots is `Some` (stated per slot:
the populated slot `Some v`, the other eleven `None`), and prints
`"Unknown"` when no slot or more than one slot is populated. -/
theorem number_display_single_slot :
    (∀ (n : Number) v, n.u8 = some v → n.u16 = none → n.u32 = none → n.u64 = none →
      n.u128 = none → n.i8 = none → n.i16 = none → n.i32 = none → n.i64 = none →
      n.i128 = none → n.f32 = none → n.f64 = none → n.display = toString v) ∧
    (∀ (n : Number) v, n.u8 = none → n.u16 = some v → n.u32 = none → n.u64 = none →
      n.u128 = none → n.i8 = none → n.i16 = none → n.i32 = none → n.i64 = none →
      n.i128 = none → n.f32 = none → n.f64 = none → n.display = toString v) ∧
    (∀ (n : Number) v, n.u8 = none → n.u16 = none → n.u32 = some v → n.u64 = none →
      n.u128 = none → n.i8 = none → n.i16 = none → n.i32 = none → n.i64 = none →
      n.i128 = none → n.f32 = none → n.f64 = none → n.display = toString v) ∧
    (∀ (n : Number) v, n.u8 = none → n.u16 = none → n.u32 = none → n.u64 = some v →
      n.u128 = none → n.i8 = none → n.i16 = none → n.i32 = none → n.i64 = none →
      n.i128 = none → n.f32 = none → n.f64 = none → n.display = toString v) ∧
    (∀ (n : Number) v, n.u8 = none → n.u16 = none → n.u32 = none → n.u64 = none →
      n.u128 = some v → n.i8 = none → n.i16 = none → n.i32 = none → n.i64 = none →
      n.i128 = none → n.f32 = none → n.f64 = none → n.display = toString v) ∧
    (∀ (n : Number) v, n.u8 = none → n.u16 = none → n.u32 = none → n.u64 = none →
      n.u128 = none → n.i8 = some v → n.i16 = none → n.i32 = none → n.i64 = none →
      n.i128 = none → n.f32 = none → n.f64 = none → n.display = toString v) ∧
    (∀ (n : Number) v, n.u8 = none → n.u16 = none → n.u32 = none → n.u64 = none →
      n.u128 = none → n.i8 = none → n.i16 = some v → n.i32 = none → n.i64 = none →
      n.i128 = none → n.f32 = none → n.f64 = none → n.display = toString v) ∧
    (∀ (n : Number) v, n.u8 = none → n.u16 = none → n.u32 = none → n.u64 = none →
      n.u128 = none → n.i8 = none → n.i16 = none → n.i32 = some v → n.i64 = none →
      n.i128 = none → n.f32 = none → n.f64 = none → n.display = toString v) ∧
    (∀ (n : Number) v, n.u8 = none → n.u16 = none → n.u32 = none → n.u64 = none →
      n.u128 = none → n.i8 = none → n.i16 = none → n.i32 = none → n.i64 = some v →
      n.i128 = none → n.f32 = none → n.f64 = none → n.display = toString v) ∧
    (∀ (n : Number) v, n.u8 = none → n.u16 = none → n.u32 = none → n.u64 = none →
      n.u128 = none → n.i8 = none → n.i16 = none → n.i32 = none → n.i64 = none →
      n.i128 = some v → n.f32 = none → n.f64 = none → n.display = toString v) ∧
    (∀ (n : Number) v, n.u8 = none → n.u16 = none → n.u32 = none → n.u64 = none →
      n.u128 = none → n.i8 = none → n.i16 = none → n.i32 = none → n.i64 = none →
      n.i128 = none → n.f32 = some v → n.f64 = none → n.display = FloatVal.render v) ∧
    (∀ (n : Number) v, n.u8 = none → n.u16 = none → n.u32 = none → n.u64 = none →
      n.u128 = none → n.i8 = none → n.i16 = none → n.i32 = none → n.i64 = none →
      n.i128 = none → n.f32 = none → n.f64 = some v → n.display = FloatVal.render v) ∧
    (∀ n : Number, n.popCount ≠ 1 → n.display = "Unknown") := by
  refine ⟨?_, ?_, ?_, ?_, ?_, ?_, ?_, ?_, ?_, ?_, ?_, ?_, ?_⟩
  on_goal 13 =>
    intro n hne
    unfold Number.display
    rw [dif_neg (fun h => hne (onlyI32_pop h)), dif_neg (fun h => hne (onlyI64_pop h)),
      dif_neg (fun h => hne (onlyF64_pop h)), dif_neg (fun h => hne (onlyF32_pop h)),
      dif_neg (fun h => hne (onlyU8_pop h)), dif_neg (fun h => hne (onlyU16_pop h)),
      dif_neg (fun h => hne (onlyU32_pop h)), dif_neg (fun h => hne (onlyU64_pop h)),
      dif_neg (fun h => hne (onlyU128_pop h)), dif_neg (fun h => hne (onlyI8_pop h)),
      dif_neg (fun h => hne (onlyI16_pop h)), dif_neg (fun h => hne (onlyI128_pop h))]
  all_goals
    intro n v h1 h2 h3 h4 h5 h6 h7 h8 h9 h10 h11 h12
    simp [Number.display, onlyI32, onlyI64, onlyF64, onlyF32, onlyU8, onlyU16,
      onlyU32, onlyU64, onlyU128, onlyI8, onlyI16, onlyI128,
      h1, h2, h3, h4, h5, h6, h7, h8, h9, h10, h11, h12]

/-- Witness for C7: a single-slot number prints its value; the empty number
and a doubly-populated number print `"Unknown"`. -/
theorem number_display_single_slot_witness :
    Number.display { u8 := some 42 } = toString (42 : Nat) ∧
    Number.display {} = "Unknown" ∧
    Number.display { u8 := some 1, i32 := some 2 } = "Unknown" :=
  ⟨number_display_single_slot.1 { u8 := some 42 } 42 rfl rfl rfl rfl rfl rfl rfl rfl
      rfl rfl rfl rfl,
    number_display_single_slot.2.2.2.2.2.2.2.2.2.2.2.2 {} (by decide),
    number_display_single_slot.2.2.2.2.2.2.2.2.2.2.2.2 { u8 := some 1, i32 := some 2 }
      (by decide)⟩

/-! ## The `Value` tagged union and its containers

`StringB` is modelled by its underlying `String` (the non-cstring build).
`DateTime` internals (chrono payloads) are irrelevant to every claim here;
only its three variants are modelled, with opaque numeric payloads.
`BTreeMap`/`HashMap` are modelled as association lists with pairwise
distinct keys — sorted by key for the BTreeMap backing, in unspecified
order for the HashMap backing; `PartialEq` on maps is modelled as list
equality (finer than Rust set equality, hence sound for every positive
equality proved below). -/

/-- `enum DateTime` (src/valu3/src/types/datetime.rs): `Date | Time |
DateTime`, payloads abstracted to numbers. -/
inductive DateTime where
  | date (d : Nat)
  | time (t : Nat)
  | dateTimeUtc (ts : Int)
  deriving DecidableEq, Repr

/-- `enum ValueKey` (src/valu3/src/types/value_key.rs): `String | Number`,
with the derived `Ord` (variant order first, then payload). -/
inductive ValueKey where
  | string (s : String)
  | number (n : Nat)
  deriving DecidableEq, Repr

/-- `ValueKey::to_string`. -/
def ValueKey.to_string : ValueKey → String
  | .string s => s
  | .number n => toString n

/-- Which backing variant an `Object` value carries. -/
inductive Backing where
  | btreeMap
  | hashMap
  deriving DecidableEq, Repr

/-- `enum Value` (src/valu3/src/value.rs): the 8-variant tagged union.
The `Object` payload is its backing tag plus the entry list. -/
inductive Value where
  | string (s : String)
  | number (n : Number)
  | boolean (b : Bool)
  | array (xs : List Value)
  | object (bk : Backing) (entries : List (ValueKey × Value))
  | null
  | undefined
  | datetime (d : DateTime)
  deriving Repr

/-- Association-list lookup, modelling `map.get(&key)` for both backings. -/
def assocGet (es : List (ValueKey × Value)) (k : ValueKey) : Option Value :=
  (es.find? (fun e => e.1 = k)).map (fun e => e.2)

/-- `enum Object` (src/valu3/src/types/object.rs): `BTreeMap | HashMap`. -/
inductive Object where
  | btreeMapOf (entries : List (ValueKey × Value))
  | hashMapOf (entries : List (ValueKey × Value))
  deriving Repr

/-- Key order `k₁ ≤ k₂` used by the BTreeMap backing (derived `Ord` on
`ValueKey`). -/
def ValueKey.keyLE (a b : ValueKey) : Prop :=
  match a, b with
  | .string x, .string y => x ≤ y
  | .string _, .number _ => True
  | .number _, .string _ => False
  | .number x, .number y => x ≤ y

instance : DecidableRel ValueKey.keyLE := fun a b => by
  unfold ValueKey.keyLE
  cases a <;> cases b <;> infer_instance

/-- Entry order by key for sorting a BTreeMap's contents. -/
def entryLE (a b : ValueKey × Value) : Prop := ValueKey.keyLE a.1 b.1

instance : DecidableRel entryLE := fun a b => by
  unfold entryLE; infer_instance

/-- `impl From<BTreeMap> for Object`: the entries are held in key-sorted
order (a BTreeMap iterates sorted by key). -/
def Object.from_btreemap (pairs : List (ValueKey × Value)) : Object :=
  Object.btreeMapOf (pairs.insertionSort entryLE)

/-- `impl From<HashMap> for Object`: the entries are held in the hash map's
(unspecified) iteration order; the input order stands in for it. -/
def Object.from_hashmap (pairs : List (ValueKey × Value)) : Object :=
  Object.hashMapOf pairs

/-- `Object::get`: dispatches on the backing, `map.get(&key)` on either. -/
def Object.get (o : Object) (k : ValueKey) : Option Value :=
  match o with
  | .btreeMapOf es => assocGet es k
  | .hashMapOf es => assocGet es k

/-- `ObjectBehavior::contains_key`. -/
def Object.contains_key (o : Object) (k : ValueKey) : Bool :=
  match o with
  | .btreeMapOf es => (es.find? (fun e => e.1 = k)).isSome
  | .hashMapOf es => (es.find? (fun e => e.1 = k)).isSome

/-- `Object::len`. -/
def Object.len (o : Object) : Nat :=
  match o with
  | .btreeMapOf es => es.length
  | .hashMapOf es => es.length

/-- `Object::is_empty`. -/
def Object.is_empty (o : Object) : Bool :=
  match o with
  | .btreeMapOf es => es.isEmpty
  | .hashMapOf es => es.isEmpty

/-- `ObjectBehavior::keys`. -/
def Object.keys (o : Object) : List ValueKey :=
  match o with
  | .btreeMapOf es => es.map (fun e => e.1)
  | .hashMapOf es => es.map (fun e => e.1)

/-- `ObjectBehavior::values`. -/
def Object.values (o : Object) : List Value :=
  match o with
  | .btreeMapOf es => es.map (fun e => e.2)
  | .hashMapOf es => es.map (fun e => e.2)

/-- The generic key parameter `T: ValueKeyBehavior` of `get`/`get_mut`:
the implementing types are `String`/`&str` (default `as_usize` = 0) and
`usize` (`as_usize` = itself), per src/valu3/src/traits.rs. -/
inductive KeyT where
  | str (s : String)
  | num (n : Nat)
  deriving DecidableEq, Repr

/-- `ValueKeyBehavior::to_value_key`. -/
def KeyT.to_value_key : KeyT → ValueKey
  | .str s => ValueKey.string s
  | .num n => ValueKey.number n

/-- `ValueKeyBehavior::as_usize` (default implementation returns 0 for
string keys). -/
def KeyT.as_usize : KeyT → Nat
  | .str _ => 0
  | .num n => n

/-- `Value::get` (src/valu3/src/impls.rs lines 5-15): `Object` looks the
key up after coercion, `Array` indexes by `key.as_usize()`, every other
variant panics. -/
def Value.get (v : Value) (k : KeyT) : Except String (Option Value) :=
  match v with
  | .object _ es => .ok (assocGet es k.to_value_key)
  | .array xs => .ok xs[k.as_usize]?
  | _ => .error "Unable to get a reference to a type other than an array or object"

/-- `Value::get_mut` (lines 17-28): same dispatch; the returned option
models whether a mutable reference is produced, holding the value at the
location. -/
def Value.get_mut (v : Value) (k : KeyT) : Except String (Option Value) :=
  match v with
  | .object _ es => .ok (assocGet es k.to_value_key)
  | .array xs => .ok xs[k.as_usize]?
  | _ => .error "Unable to get a mutable reference to a type other than an array or object"

/-- True exactly on the `Object` and `Array` variants. -/
def Value.isObjectOrArray : Value → Bool
  | .object _ _ => true
  | .array _ => true
  | _ => false

/-- True exactly on the `Number` variant. -/
def Value.isNumberVariant : Value → Bool
  | .number _ => true
  | _ => false

/-! `impl NumberBehavior for DefaultValue` (src/valu3/src/impls.rs):
every `is_*` predicate delegates to the `Number` payload and returns
`false` on any other variant; `number_type` returns `Unknown`; the safe
`get_*` accessors panic on any other variant. -/

def Value.is_i8 : Value → Bool
  | .number n => n.is_i8
  | _ => false

def Value.is_i16 : Value → Bool
  | .number n => n.is_i16
  | _ => false

def Value.is_i32 : Value → Bool
  | .number n => n.is_i32
  | _ => false

def Value.is_i64 : Value → Bool
  | .number n => n.is_i64
  | _ => false

def Value.is_i128 : Value → Bool
  | .number n => n.is_i128
  | _ => false

def Value.is_u8 : Value → Bool
  | .number n => n.is_u8
  | _ => false

def Value.is_u16 : Value → Bool
  | .number n => n.is_u16
  | _ => false

def Value.is_u32 : Value → Bool
  | .number n => n.is_u32
  | _ => false

def Value.is_u64 : Value → Bool
  | .number n => n.is_u64
  | _ => false

def Value.is_u128 : Value → Bool
  | .number n => n.is_u128
  | _ => false

def Value.is_f32 : Value → Bool
  | .number n => n.is_f32
  | _ => false

def Value.is_f64 : Value → Bool
  | .number n => n.is_f64
  | _ => false

def Value.is_number : Value → Bool
  | .number _ => true
  | _ => false

def Value.is_integer : Value → Bool
  | .number n => n.is_integer
  | _ => false

def Value.is_float : Value → Bool
  | .number n => n.is_float
  | _ => false

def Value.is_signed : Value → Bool
  | .number n => n.is_signed
  | _ => false

def Value.is_unsigned : Value → Bool
  | .number n => n.is_unsigned
  | _ => false

def Value.is_zero : Value → Bool
  | .number n => n.is_zero
  | _ => false

def Value.is_positive : Value → Bool
  | .number n => n.is_positive
  | _ => false

def Value.is_negative : Value → Bool
  | .number n => n.is_negative
  | _ => false

def Value.number_type : Value → NumberType
  | .number n => n.number_type
  | _ => .Unknown

/-- The panic message shared by the `get_*` accessors on `DefaultValue`. -/
def numPanic : String := "Unable to get a DefaultValue other than a number"

def Value.get_u8 : Value → Except String (Option Nat)
  | .number n => .ok n.u8
  | _ => .error numPanic

def Value.get_u16 : Value → Except String (Option Nat)
  | .number n => .ok n.u16
  | _ => .error numPanic

def Value.get_u32 : Value → Except String (Option Nat)
  | .number n => .ok n.u32
  | _ => .error numPanic

def Value.get_u64 : Value → Except String (Option Nat)
  | .number n => .ok n.u64
  | _ => .error numPanic

def Value.get_u128 : Value → Except String (Option Nat)
  | .number n => .ok n.u128
  | _ => .error numPanic

def Value.get_i8 : Value → Except String (Option Int)
  | .number n => .ok n.i8
  | _ => .error numPanic

def Value.get_i16 : Value → Except String (Option Int)
  | .number n => .ok n.i16
  | _ => .error numPanic

def Value.get_i32 : Value → Except String (Option Int)
  | .number n => .ok n.i32
  | _ => .error numPanic

def Value.get_i64 : Value → Except String (Option Int)
  | .number n => .ok n.i64
  | _ => .error numPanic

def Value.get_i128 : Value → Except String (Option Int)
  | .number n => .ok n.i128
  | _ => .error numPanic

def Value.get_f32 : Value → Except String (Option FloatVal)
  | .number n => .ok n.f32
  | _ => .error numPanic

def Value.get_f64 : Value → Except String (Option FloatVal)
  | .number n => .ok n.f64
  | _ => .error numPanic

/-- C4: `Value::get`/`get_mut` return an option on the `Object` variant
(key coerced via `to_value_key`) and on the `Array` variant (index via
`as_usize`), and panic on every other variant; in particular
`Value::Boolean(true).get("x")` panics. -/
theorem value_get_object_array_only :
    (∀ bk es (k : KeyT), Value.get (.object bk es) k = .ok (assocGet es k.to_value_key) ∧
      Value.get_mut (.object bk es) k = .ok (assocGet es k.to_value_key)) ∧
    (∀ xs (k : KeyT), Value.get (.array xs) k = .ok xs[k.as_usize]? ∧
      Value.get_mut (.array xs) k = .ok xs[k.as_usize]?) ∧
    (∀ (v : Value) (k : KeyT), v.isObjectOrArray = false →
      v.get k = .error "Unable to get a reference to a type other than an array or object" ∧
      v.get_mut k =
        .error "Unable to get a mutable reference to a type other than an array or object") ∧
    Value.get (.boolean true) (.str "x") =
      .error "Unable to get a reference to a type other than an array or object" := by
  refine ⟨fun bk es k => ⟨rfl, rfl⟩, fun xs k => ⟨rfl, rfl⟩, ?_, rfl⟩
  intro v k h
  cases v <;> simp_all [Value.isObjectOrArray, Value.get, Value.get_mut]

/-- Witness for C4 on `Value::Boolean(true)` and `Value::Null`. -/
theorem value_get_object_array_only_witness :
    Value.get (.boolean true) (.str "x") =
      .error "Unable to get a reference to a type other than an array or object" ∧
    Value.get_mut (.null) (.num 0) =
      .error "Unable to get a mutable reference to a type other than an array or object" :=
  ⟨(value_get_object_array_only.2.2.1 (.boolean true) (.str "x") rfl).1,
    (value_get_object_array_only.2.2.1 .null (.num 0) rfl).2⟩

/-- C10: on every non-`Number` variant all numeric predicates return
`false` and `number_type()` returns `Unknown` without panicking, while the
numeric `get_*` accessors panic on the same variants. -/
theorem value_number_predicates_total (v : Value) (h : v.isNumberVariant = false) :
    v.is_u8 = false ∧ v.is_u16 = false ∧ v.is_u32 = false ∧ v.is_u64 = false ∧
    v.is_u128 = false ∧ v.is_i8 = false ∧ v.is_i16 = false ∧ v.is_i32 = false ∧
    v.is_i64 = false ∧ v.is_i128 = false ∧ v.is_f32 = false ∧ v.is_f64 = false ∧
    v.is_number = false ∧ v.is_integer = false ∧ v.is_float = false ∧
    v.is_signed = false ∧ v.is_unsigned = false ∧ v.is_zero = false ∧
    v.is_positive = false ∧ v.is_negative = false ∧ v.number_type = .Unknown ∧
    v.get_u8 = .error numPanic ∧ v.get_u16 = .error numPanic ∧
    v.get_u32 = .error numPanic ∧ v.get_u64 = .error numPanic ∧
    v.get_u128 = .error numPanic ∧ v.get_i8 = .error numPanic ∧
    v.get_i16 = .error numPanic ∧ v.get_i32 = .error numPanic ∧
    v.get_i64 = .error numPanic ∧ v.get_i128 = .error numPanic ∧
    v.get_f32 = .error numPanic ∧ v.get_f64 = .error numPanic := by
  cases v <;> simp_all [Value.isNumberVariant, Value.is_u8, Value.is_u16, Value.is_u32,
    Value.is_u64, Value.is_u128, Value.is_i8, Value.is_i16, Value.is_i32, Value.is_i64,
    Value.is_i128, Value.is_f32, Value.is_f64, Value.is_number, Value.is_integer,
    Value.is_float, Value.is_signed, Value.is_unsigned, Value.is_zero, Value.is_positive,
    Value.is_negative, Value.number_type, Value.get_u8, Value.get_u16, Value.get_u32,
    Value.get_u64, Value.get_u128, Value.get_i8, Value.get_i16, Value.get_i32,
    Value.get_i64, Value.get_i128, Value.get_f32, Value.get_f64]

/-- However `value_number_predicates_total` is instantiated, its hypothesis
holds e.g. on `Value::Boolean(true)`; this witnesses the claim there. -/
theorem value_number_predicates_total_witness :
    (Value.boolean true).is_positive = false ∧
    (Value.boolean true).number_type = .Unknown ∧
    (Value.boolean true).get_i32 = .error numPanic :=
  ⟨(value_number_predicates_total (.boolean true) rfl).2.2.2.2.2.2.2.2.2.2.2.2.2.2.2.2.2.2.1,
    (value_number_predicates_total (.boolean true) rfl).2.2.2.2.2.2.2.2.2.2.2.2.2.2.2.2.2.2.2.2.1,
    (value_number_predicates_total (.boolean true) rfl).2.2.2.2.2.2.2.2.2.2.2.2.2.2.2.2.2.2.2.2.2.2.2.2.2.2.2.2.2.1⟩

/-! ## `FromValueBehavior` (src/valu3/src/traits.rs)

The generic element conversion `T::from_value` is a parameter
`f : Value → Option α`.  The nested `unwrap()` calls are modelled as
`Except String`, the error carrying the panic message of `Option::unwrap`. -/

/-- The panic message of `Option::unwrap` on `None`. -/
def unwrapPanic : String := "called Option::unwrap on a None value"

/-- `impl FromValueBehavior for bool`: `Some(b)` on the Boolean variant,
`None` otherwise (a concrete instance of the element conversion). -/
def bool_from_value : Value → Option Bool
  | .boolean b => some b
  | _ => none

/-- `array.into_iter().map(|v| T::from_value(v).unwrap()).collect()`:
panics at the first element whose conversion fails. -/
def mapUnwrap {α : Type} (f : Value → Option α) : List Value → Except String (List α)
  | [] => .ok []
  | v :: vs =>
    match f v with
    | none => .error unwrapPanic
    | some a => (mapUnwrap f vs).map (fun l => a :: l)

/-- `impl FromValueBehavior for Vec<T>` (lines 255-274): `None` unless the
value is the Array variant; inside, every element is converted with
`unwrap()`. -/
def vec_from_value {α : Type} (f : Value → Option α) : Value → Except String (Option (List α))
  | .array xs => (mapUnwrap f xs).map some
  | _ => .ok none

/-- `ValueKey::as_string_b().as_string()`.  `as_string_b` is not present
under src (only its callers are); it is modelled as returning the key's
string form, which is all the surrounding fold observes. -/
def ValueKey.as_string_b_string (k : ValueKey) : String := k.to_string

/-- `HashMap::insert` on the association-list model: replaces the value of
an existing key, otherwise appends. -/
def hashInsert {α : Type} (acc : List (String × α)) (k : String) (a : α) :
    List (String × α) :=
  if (acc.find? (fun e => e.1 = k)).isSome then
    acc.map (fun e => if e.1 = k then (k, a) else e)
  else acc ++ [(k, a)]

/-- The fold body of `impl FromValueBehavior for HashMap<String, T>`
(lines 368-389): inserts `key.as_string_b().as_string()` with the
unwrapped element conversion, panicking on the first failure. -/
def foldInsertUnwrap {α : Type} (f : Value → Option α) :
    List (ValueKey × Value) → List (String × α) → Except String (List (String × α))
  | [], acc => .ok acc
  | (k, v) :: rest, acc =>
    match f v with
    | none => .error unwrapPanic
    | some a => foldInsertUnwrap f rest (hashInsert acc k.as_string_b_string a)

/-- `impl FromValueBehavior for HashMap<String, T>`: `None` unless the
value is the Object variant; inside, every entry's value is converted with
`unwrap()`. -/
def hashmap_from_value {α : Type} (f : Value → Option α) :
    Value → Except String (Option (List (String × α)))
  | .object _ es => (foldInsertUnwrap f es []).map some
  | _ => .ok none

lemma mapUnwrap_error {α : Type} (f : Value → Option α) :
    ∀ xs : List Value, (∃ x ∈ xs, f x = none) → mapUnwrap f xs = .error unwrapPanic := by
  intro xs
  induction xs with
  | nil => rintro ⟨x, hx, _⟩; cases hx
  | cons v vs ih =>
    rintro ⟨x, hx, hfx⟩
    rcases List.mem_cons.mp hx with rfl | hx
    · simp [mapUnwrap, hfx]
    · unfold mapUnwrap
      cases hv : f v with
      | none => rfl
      | some a => rw [ih ⟨x, hx, hfx⟩]; rfl

lemma mapUnwrap_ok {α : Type} (f : Value → Option α) :
    ∀ xs : List Value, (∀ x ∈ xs, (f x).isSome) → ∃ l, mapUnwrap f xs = .ok l := by
  intro xs
  induction xs with
  | nil => exact fun _ => ⟨[], rfl⟩
  | cons v vs ih =>
    intro h
    obtain ⟨a, ha⟩ := Option.isSome_iff_exists.mp (h v (List.mem_cons_self v vs))
    obtain ⟨l, hl⟩ := ih (fun x hx => h x (List.mem_cons_of_mem v hx))
    exact ⟨a :: l, by simp [mapUnwrap, ha, hl, Except.map]⟩

lemma foldInsertUnwrap_error {α : Type} (f : Value → Option α) :
    ∀ (es : List (ValueKey × Value)) acc, (∃ e ∈ es, f e.2 = none) →
      foldInsertUnwrap f es acc = .error unwrapPanic := by
  intro es
  induction es with
  | nil => rintro _ ⟨e, he, _⟩; cases he
  | cons p rest ih =>
    rintro acc ⟨e, he, hfe⟩
    obtain ⟨k, v⟩ := p
    rcases List.mem_cons.mp he with rfl | he
    · simp [foldInsertUnwrap, hfe]
    · unfold foldInsertUnwrap
      cases hv : f v with
      | none => rfl
      | some a => exact ih _ ⟨e, he, hfe⟩

lemma foldInsertUnwrap_ok {α : Type} (f : Value → Option α) :
    ∀ (es : List (ValueKey × Value)) acc, (∀ e ∈ es, (f e.2).isSome) →
      ∃ l, foldInsertUnwrap f es acc = .ok l := by
  intro es
  induction es with
  | nil => exact fun acc _ => ⟨acc, rfl⟩
  | cons p rest ih =>
    intro acc h
    obtain ⟨k, v⟩ := p
    obtain ⟨a, ha⟩ := Option.isSome_iff_exists.mp (h (k, v) (List.mem_cons_self _ _))
    obtain ⟨l, hl⟩ := ih (hashInsert acc k.as_string_b_string a)
      (fun e he => h e (List.mem_cons_of_mem _ he))
    exact ⟨l, by simp only [foldInsertUnwrap, ha]; exact hl⟩

/-- C8: `FromValueBehavior` for `Vec<T>` and `HashMap<String, T>` returns
`None` when the top-level variant does not match (not Array, resp. not
Object), but panics via `unwrap` as soon as one contained element's
conversion fails; with no failing element it succeeds. -/
theorem from_value_nested_unwrap_asymmetry {α : Type} (f : Value → Option α) :
    (∀ v : Value, (∀ xs, v ≠ .array xs) → vec_from_value f v = .ok none) ∧
    (∀ xs : List Value, (∃ x ∈ xs, f x = none) →
      vec_from_value f (.array xs) = .error unwrapPanic) ∧
    (∀ xs : List Value, (∀ x ∈ xs, (f x).isSome) →
      ∃ l, vec_from_value f (.array xs) = .ok (some l)) ∧
    (∀ v : Value, (∀ bk es, v ≠ .object bk es) → hashmap_from_value f v = .ok none) ∧
    (∀ bk (es : List (ValueKey × Value)), (∃ e ∈ es, f e.2 = none) →
      hashmap_from_value f (.object bk es) = .error unwrapPanic) ∧
    (∀ bk (es : List (ValueKey × Value)), (∀ e ∈ es, (f e.2).isSome) →
      ∃ l, hashmap_from_value f (.object bk es) = .ok (some l)) := by
  refine ⟨?_, ?_, ?_, ?_, ?_, ?_⟩
  · intro v hv
    cases v with
    | array xs => exact absurd rfl (hv xs)
    | _ => rfl
  · intro xs hx
    simp [vec_from_value, mapUnwrap_error f xs hx, Except.map]
  · intro xs hx
    obtain ⟨l, hl⟩ := mapUnwrap_ok f xs hx
    exact ⟨l, by simp [vec_from_value, hl, Except.map]⟩
  · intro v hv
    cases v with
    | object bk es => exact absurd rfl (hv bk es)
    | _ => rfl
  · intro bk es he
    simp [hashmap_from_value, foldInsertUnwrap_error f es [] he, Except.map]
  · intro bk es he
    obtain ⟨l, hl⟩ := foldInsertUnwrap_ok f es [] he
    exact ⟨l, by simp [hashmap_from_value, hl, Except.map]⟩

/-- Witness for C8 with the `bool` element conversion: a non-Array value
gives `None`; an Array (resp. Object) containing one `Null` element
panics; an Array of Booleans succeeds. -/
theorem from_value_nested_unwrap_asymmetry_witness :
    vec_from_value bool_from_value .null = .ok none ∧
    vec_from_value bool_from_value (.array [.null]) = .error unwrapPanic ∧
    (∃ l, vec_from_value bool_from_value (.array [.boolean true]) = .ok (some l)) ∧
    hashmap_from_value bool_from_value
      (.object .hashMap [(.string "k", .null)]) = .error unwrapPanic :=
  ⟨(from_value_nested_unwrap_asymmetry bool_from_value).1 .null (fun _ h => by cases h),
    (from_value_nested_unwrap_asymmetry bool_from_value).2.1 [.null]
      ⟨.null, List.mem_singleton.mpr rfl, rfl⟩,
    (from_value_nested_unwrap_asymmetry bool_from_value).2.2.1 [.boolean true]
      (by intro x hx; rw [List.mem_singleton.mp hx]; rfl),
    (from_value_nested_unwrap_asymmetry bool_from_value).2.2.2.2.1 .hashMap
      [(.string "k", .null)] ⟨(.string "k", .null), List.mem_singleton.mpr rfl, rfl⟩⟩

/-! ## C5: Object backing transparency -/

lemma find?_eq_of_perm {es1 es2 : List (ValueKey × Value)} (hp : es1.Perm es2)
    (hnd : (es1.map Prod.fst).Nodup) (k : ValueKey) :
    es1.find? (fun e => e.1 = k) = es2.find? (fun e => e.1 = k) := by
  induction hp with
  | nil => rfl
  | cons x _ ih =>
    simp only [List.find?_cons]
    split
    · rfl
    · exact ih (by simpa using hnd.of_cons)
  | swap x y l =>
    simp only [List.find?_cons]
    rcases hxk : decide (x.1 = k) with _ | _ <;> rcases hyk : decide (y.1 = k) with _ | _ <;>
      simp_all
  | trans h1 h2 ih1 ih2 =>
    rw [ih1 hnd, ih2 ((h1.map Prod.fst).nodup_iff.mp hnd)]

/-- C5: for the same key/value pairs (with pairwise distinct keys), the
Object built from a BTreeMap (key-sorted backing) and the Object built
from a HashMap of the same pairs agree on `get(k)` and `contains_key(k)`
for every key and on `len()`; `keys()` differ at most in order (they are
permutations of each other). -/
theorem object_backing_transparency (pairs : List (ValueKey × Value))
    (hnd : (pairs.map Prod.fst).Nodup) :
    (∀ k, (Object.from_btreemap pairs).get k = (Object.from_hashmap pairs).get k) ∧
    (∀ k, (Object.from_btreemap pairs).contains_key k =
      (Object.from_hashmap pairs).contains_key k) ∧
    (Object.from_btreemap pairs).len = (Object.from_hashmap pairs).len ∧
    (Object.from_btreemap pairs).keys.Perm (Object.from_hashmap pairs).keys := by
  have hperm : (pairs.insertionSort entryLE).Perm pairs := List.perm_insertionSort _ _
  have hnds : ((pairs.insertionSort entryLE).map Prod.fst).Nodup :=
    (hperm.map Prod.fst).nodup_iff.mpr hnd
  refine ⟨?_, ?_, ?_, ?_⟩
  · intro k
    simp only [Object.from_btreemap, Object.from_hashmap, Object.get, assocGet]
    rw [find?_eq_of_perm hperm hnds k]
  · intro k
    simp only [Object.from_btreemap, Object.from_hashmap, Object.contains_key]
    rw [find?_eq_of_perm hperm hnds k]
  · simp [Object.from_btreemap, Object.from_hashmap, Object.len]
  · simpa [Object.from_btreemap, Object.from_hashmap, Object.keys] using hperm.map Prod.fst

/-- Witness for C5 on the two-entry pair set `{"b" ↦ null, "a" ↦ true}`
(whose sorted and given orders differ). -/
theorem object_backing_transparency_witness :
    (∀ k, (Object.from_btreemap
        [(.string "b", .null), (.string "a", .boolean true)]).get k =
      (Object.from_hashmap
        [(.string "b", .null), (.string "a", .boolean true)]).get k) ∧
    (Object.from_btreemap [(.string "b", .null), (.string "a", .boolean true)]).len =
      (Object.from_hashmap [(.string "b", .null), (.string "a", .boolean true)]).len :=
  ⟨(object_backing_transparency _ (by simp)).1,
    (object_backing_transparency _ (by simp)).2.2.1⟩

/-! ## JSON serializer (src/valu3/src/to/json.rs) -/

/-- `enum JsonMode`. -/
inductive JsonMode where
  | Indented
  | Inline

/-- `Vec<String>::join(sep)`. -/
def joinSep (sep : String) : List String → String
  | [] => ""
  | [x] => x
  | x :: y :: xs => x ++ sep ++ joinSep sep (y :: xs)

/-- `Value::tabs`: `vec!["\t"; total].join("")`. -/
def tabs (total : Nat) : String := joinSep "" (List.replicate total "\t")

/-- The string-escaping pass of `to_json_inner`'s `String` arm: a `\` is
inserted before every `"` not already preceded by `\` (the preceding
character inspected in the original string); nothing else is escaped. -/
def escQ : Option Char → List Char → List Char
  | _, [] => []
  | prev, c :: rest =>
    if c = '"' ∧ prev ≠ some '\\' then '\\' :: c :: escQ (some c) rest
    else c :: escQ (some c) rest

/-- `Display` for the modelled `DateTime` (payload shown as a number; the
chrono formatting details are irrelevant to every claim here). -/
def DateTime.display : DateTime → String
  | .date d => toString d
  | .time t => toString t
  | .dateTimeUtc ts => toString ts

mutual

/-- `Value::to_json_inner`: the recursive JSON printer, arm by arm.
Objects print each entry as `\n\t{tabs}"name": {inner}` joined with `,`,
wrapped in braces with a trailing newline+tabs; arrays print elements
joined with `,\n\t{tabs}` inside brackets; strings get the quote-escaping
pass; numbers/booleans/null/undefined print their `Display` forms;
datetimes print quoted. -/
def to_json_inner : Value → Nat → String
  | .object _ es, children =>
    "\x7b" ++ joinSep "," (objectParts es children) ++ "\n" ++ tabs children ++ "\x7d"
  | .array xs, children =>
    "[" ++ "\n\t" ++ tabs children ++
      joinSep ("," ++ "\n\t" ++ tabs children) (arrayParts xs children) ++
      "\n" ++ tabs children ++ "]"
  | .string s, _ => "\"" ++ String.mk (escQ none s.data) ++ "\""
  | .number n, _ => n.display
  | .boolean b, _ => if b then "true" else "false"
  | .null, _ => "null"
  | .undefined, _ => "undefined"
  | .datetime dt, _ => "\"" ++ dt.display ++ "\""

/-- The mapped entry strings of the object arm. -/
def objectParts : List (ValueKey × Value) → Nat → List String
  | [], _ => []
  | (k, v) :: rest, children =>
    ("\n\t" ++ tabs children ++ "\"" ++ k.to_string ++ "\": " ++
      to_json_inner v (children + 1)) :: objectParts rest children

/-- The mapped element strings of the array arm. -/
def arrayParts : List Value → Nat → List String
  | [], _ => []
  | v :: rest, children => to_json_inner v (children + 1) :: arrayParts rest children

end

/-- `Value::inline`: strips every `\n` and `\t` (the regex replace). -/
def stripNlTab (s : String) : String :=
  String.mk (s.data.filter (fun c => !(c = '\n' ∨ c = '\t')))

/-- `Value::to_json`. -/
def Value.to_json (v : Value) (mode : JsonMode) : String :=
  match mode with
  | .Inline => stripNlTab (to_json_inner v 0)
  | .Indented => to_json_inner v 0

/-! ## JSON parser (src/valu3/src/parser/mod.rs)

Modelled from the spec: the pest grammar file `value.pest` is not under
src/ (only the `#[grammar = "parser/value.pest"]` reference and
`parse_value`'s productions are).  Following §4.4 of the specification, the
grammar is a JSON-like one — object, array, string, number, boolean, null —
with implicit whitespace between tokens, quote-delimited strings whose
inner text admits backslash escape pairs and is taken *raw* (never
unescaped), and numbers as an optional `-`, an integer digit run, optional
`.`-fraction and optional exponent, handed to the `Number::try_from`
cascade.  `parse_value`'s tree construction (objects collected into a
`HashMap`-backed Object with string keys, arrays into `Value::Array`) is
translated from src/valu3/src/parser/mod.rs. -/

def lbrace : Char := '\x7b'

def rbrace : Char := '\x7d'

/-- The implicit WHITESPACE rule: space, tab, carriage return, newline. -/
def isWsChar (c : Char) : Bool := c = ' ' ∨ c = '\t' ∨ c = '\r' ∨ c = '\n'

def skipWs (cs : List Char) : List Char := cs.dropWhile isWsChar

/-- A character that could extend a number token to its right. -/
def extChar (c : Char) : Bool := c.isDigit || c = '.' || c = 'e' || c = 'E'

/-- An admissible escape-pair second character. -/
def isEscCh (e : Char) : Bool :=
  e = '"' ∨ e = '\\' ∨ e = '/' ∨ e = 'b' ∨ e = 'f' ∨ e = 'n' ∨ e = 'r' ∨ e = 't'

/-- Scan a string body up to the unescaped closing quote, returning the
raw inner text (escape pairs kept verbatim) and the input past the quote. -/
def scanInner : List Char → Option (List Char × List Char)
  | [] => none
  | c :: rest =>
    if c = '"' then some ([], rest)
    else if c = '\\' then
      match rest with
      | [] => none
      | e :: rest2 =>
        if isEscCh e then (scanInner rest2).map (fun p => (c :: e :: p.1, p.2))
        else none
    else (scanInner rest).map (fun p => (c :: p.1, p.2))

/-- The optional `.`-fraction (backtracks unless `.` is followed by a
digit). -/
def scanFrac : List Char → List Char × List Char
  | [] => ([], [])
  | c :: t =>
    if c = '.' then
      if (t.takeWhile Char.isDigit).isEmpty then ([], c :: t)
      else (c :: t.takeWhile Char.isDigit, t.dropWhile Char.isDigit)
    else ([], c :: t)

/-- The exponent body after `e`/`E`: optional sign then digits
(backtracks to nothing unless digits follow). -/
def scanExpAfterE (e : Char) : List Char → List Char × List Char
  | [] => ([], [e])
  | s :: t2 =>
    if s = '+' ∨ s = '-' then
      if (t2.takeWhile Char.isDigit).isEmpty then ([], e :: s :: t2)
      else (e :: s :: t2.takeWhile Char.isDigit, t2.dropWhile Char.isDigit)
    else
      if ((s :: t2).takeWhile Char.isDigit).isEmpty then ([], e :: s :: t2)
      else (e :: (s :: t2).takeWhile Char.isDigit, (s :: t2).dropWhile Char.isDigit)

/-- The optional exponent (backtracks unless digits follow). -/
def scanExp : List Char → List Char × List Char
  | [] => ([], [])
  | e :: t => if e = 'e' ∨ e = 'E' then scanExpAfterE e t else ([], e :: t)

/-- The unsigned number body: digit run, optional fraction and exponent,
by maximal munch. -/
def scanNumBody (cs : List Char) : Option (List Char × List Char) :=
  if (cs.takeWhile Char.isDigit).isEmpty then none
  else
    let fp := scanFrac (cs.dropWhile Char.isDigit)
    let ep := scanExp fp.2
    some (cs.takeWhile Char.isDigit ++ fp.1 ++ ep.1, ep.2)

/-- The number token: optional `-` then the number body. -/
def scanNumberTok : List Char → Option (List Char × List Char)
  | [] => none
  | c :: t =>
    if c = '-' then (scanNumBody t).map (fun p => (c :: p.1, p.2))
    else scanNumBody (c :: t)

/-- `HashMap::insert` for `ValueKey` keys on the association-list model. -/
def insertKV (acc : List (ValueKey × Value)) (k : ValueKey) (v : Value) :
    List (ValueKey × Value) :=
  if (acc.find? (fun e => e.1 = k)).isSome then
    acc.map (fun e => if e.1 = k then (k, v) else e)
  else acc ++ [(k, v)]

/-- `collect::<HashMap<_, _>>()` over the parsed pairs: sequential
insertion, later duplicates replacing earlier ones. -/
def collectPairs : List (ValueKey × Value) → List (ValueKey × Value) →
    List (ValueKey × Value)
  | [], acc => acc
  | (k, v) :: rest, acc => collectPairs rest (insertKV acc k v)

mutual

/-- The recursive-descent `value` production: dispatches on the first
non-whitespace character to the object, array, string, boolean, null or
number production.  `fuel` decreases at every recursive call; every entry
point passes more fuel than the input length, which the termination
arguments below show is enough. -/
def parseValue : Nat → List Char → Option (Value × List Char)
  | 0, _ => none
  | fuel + 1, cs =>
    match skipWs cs with
    | [] => none
    | c :: t =>
      if c = lbrace then
        match skipWs t with
        | [] => none
        | c2 :: t2 =>
          if c2 = rbrace then some (.object .hashMap [], t2)
          else
            match parsePairs fuel (c2 :: t2) with
            | some (es, r) => some (.object .hashMap (collectPairs es []), r)
            | none => none
      else if c = '[' then
        match skipWs t with
        | ']' :: t2 => some (.array [], t2)
        | t2 =>
          match parseItems fuel t2 with
          | some (xs, r) => some (.array xs, r)
          | none => none
      else if c = '"' then
        match scanInner t with
        | some (inner, r) => some (.string (String.mk inner), r)
        | none => none
      else if c = 't' then
        match t with
        | 'r' :: 'u' :: 'e' :: t2 => some (.boolean true, t2)
        | _ => none
      else if c = 'f' then
        match t with
        | 'a' :: 'l' :: 's' :: 'e' :: t2 => some (.boolean false, t2)
        | _ => none
      else if c = 'n' then
        match t with
        | 'u' :: 'l' :: 'l' :: t2 => some (.null, t2)
        | _ => none
      else
        match scanNumberTok (c :: t) with
        | some (tok, r) =>
          match Number.try_from (String.mk tok) with
          | .ok n => some (.number n, r)
          | .error _ => none
        | none => none

/-- The element list of a nonempty array: value, then `,` and more
elements or the closing `]`. -/
def parseItems : Nat → List Char → Option (List Value × List Char)
  | 0, _ => none
  | fuel + 1, cs =>
    match parseValue fuel cs with
    | some (v, r) =>
      match skipWs r with
      | ',' :: t =>
        match parseItems fuel t with
        | some (vs, r2) => some (v :: vs, r2)
        | none => none
      | ']' :: t => some ([v], t)
      | _ => none
    | none => none

/-- The pair list of a nonempty object: `"key"` `:` value, then `,` and
more pairs or the closing brace. -/
def parsePairs : Nat → List Char → Option (List (ValueKey × Value) × List Char)
  | 0, _ => none
  | fuel + 1, cs =>
    match skipWs cs with
    | '"' :: t =>
      match scanInner t with
      | some (inner, r) =>
        match skipWs r with
        | ':' :: t2 =>
          match parseValue fuel t2 with
          | some (v, r2) =>
            match skipWs r2 with
            | ',' :: t3 =>
              match parsePairs fuel t3 with
              | some (es, r3) => some ((ValueKey.string (String.mk inner), v) :: es, r3)
              | none => none
            | c3 :: t3 =>
              if c3 = rbrace then some ([(ValueKey.string (String.mk inner), v)], t3)
              else none
            | [] => none
          | none => none
        | _ => none
      | none => none
    | _ => none

end

/-- `Value::payload_to_value`: trims, parses one value, and requires the
input to be exhausted; grammar mismatch surfaces as `NonParsebleMsg`. -/
def payload_to_value (s : String) : Except Error Value :=
  match parseValue (s.data.length + 1) s.data with
  | some (v, rest) =>
    if (skipWs rest).isEmpty then .ok v
    else .error (Error.NonParsebleMsg "expected end of input")
  | none => .error (Error.NonParsebleMsg "grammar mismatch")

/-! ## The JSON-compatible shapes of C1 (amended) -/

/-- A string free of quotes and backslashes: serialized verbatim and
parsed back verbatim. -/
def strOK (cs : List Char) : Bool := cs.all (fun c => !(c = '"' ∨ c = '\\'))

/-- The exponent body shape after `e`/`E`: optional sign, one or more
digits, nothing after. -/
def shapeExpAfterE : List Char → Bool
  | [] => false
  | s :: t2 =>
    if s = '+' ∨ s = '-' then
      !(t2.takeWhile Char.isDigit).isEmpty && (t2.dropWhile Char.isDigit).isEmpty
    else
      !((s :: t2).takeWhile Char.isDigit).isEmpty && ((s :: t2).dropWhile Char.isDigit).isEmpty

/-- The exponent tail of a number token: empty, or `e`/`E` then a shaped
exponent body. -/
def shapeExp : List Char → Bool
  | [] => true
  | e :: t => (e = 'e' ∨ e = 'E') && shapeExpAfterE t

/-- The fraction-then-exponent tail of a number token. -/
def shapeFrac : List Char → Bool
  | [] => true
  | c :: t =>
    if c = '.' then
      !(t.takeWhile Char.isDigit).isEmpty && shapeExp (t.dropWhile Char.isDigit)
    else shapeExp (c :: t)

/-- A complete number token of the grammar: optional `-`, one or more
digits, optional `.`-fraction, optional exponent, nothing left over. -/
def numTokenShape : List Char → Bool
  | [] => false
  | c :: t =>
    if c = '-' then
      !(t.takeWhile Char.isDigit).isEmpty && shapeFrac (t.dropWhile Char.isDigit)
    else
      !((c :: t).takeWhile Char.isDigit).isEmpty && shapeFrac ((c :: t).dropWhile Char.isDigit)

/-- A parse-canonical number: its `Display` form is exactly one number
token of the grammar, and feeding it back through the `TryFrom<&str>`
cascade reproduces the same `Number` slot-for-slot. -/
def numCanon (n : Number) : Bool :=
  (match Number.try_from n.display with
    | .ok m => decide (m = n)
    | .error _ => false) &&
  numTokenShape n.display.data

/-- An object key that survives the round trip: a String-variant key whose
text is quote- and backslash-free. -/
def keyOK : ValueKey → Bool
  | .string s => strOK s.data
  | .number _ => false

mutual

/-- The JSON-compatible shapes for which the round trip holds: Null,
Boolean, canonical Number, clean String, Array of such values, and
HashMap-backed Object with distinct clean String keys and such values. -/
def jsonShaped : Value → Bool
  | .string s => strOK s.data
  | .number n => numCanon n
  | .boolean _ => true
  | .null => true
  | .array xs => jsonShapedList xs
  | .object bk es =>
    decide (bk = Backing.hashMap) && decide ((es.map (fun e => e.1)).Nodup) &&
      es.all (fun e => keyOK e.1) && jsonShapedEntries es
  | .undefined => false
  | .datetime _ => false

def jsonShapedList : List Value → Bool
  | [] => true
  | v :: vs => jsonShaped v && jsonShapedList vs

def jsonShapedEntries : List (ValueKey × Value) → Bool
  | [] => true
  | e :: es => jsonShaped e.2 && jsonShapedEntries es

end

/-! ## Basic string/whitespace lemmas -/

lemma data_append (a b : String) : (a ++ b).data = a.data ++ b.data := rfl

lemma joinSep_empty_data (l : List String) :
    (joinSep "" l).data = (l.map String.data).flatten := by
  induction l with
  | nil => rfl
  | cons x xs ih =>
    cases xs with
    | nil => simp [joinSep]
    | cons y ys =>
      simp only [joinSep, data_append, ih, List.map_cons, List.flatten_cons]
      simp

lemma tabs_data (d : Nat) : (tabs d).data = List.replicate d '\t' := by
  unfold tabs
  rw [joinSep_empty_data]
  induction d with
  | zero => rfl
  | succ k ih => simp_all [List.replicate_succ]

lemma tabs_all_ws (d : Nat) : (tabs d).data.all isWsChar = true := by
  rw [tabs_data]
  simp [List.all_eq_true, isWsChar]

lemma skipWs_cons_ws {c : Char} (hc : isWsChar c = true) (t : List Char) :
    skipWs (c :: t) = skipWs t := by
  simp [skipWs, List.dropWhile_cons, hc]

lemma skipWs_cons_not {c : Char} (hc : isWsChar c = false) (t : List Char) :
    skipWs (c :: t) = c :: t := by
  simp [skipWs, List.dropWhile_cons, hc]

lemma skipWs_append_ws {p : List Char} (hp : p.all isWsChar = true) (r : List Char) :
    skipWs (p ++ r) = skipWs r := by
  induction p with
  | nil => rfl
  | cons c t ih =>
    rw [List.all_cons, Bool.and_eq_true] at hp
    rw [List.cons_append, skipWs_cons_ws hp.1, ih hp.2]

lemma escQ_id (prev : Option Char) (cs : List Char)
    (h : cs.all (fun c => !(c = '"' ∨ c = '\\')) = true) : escQ prev cs = cs := by
  induction cs generalizing prev with
  | nil => rfl
  | cons c t ih =>
    rw [List.all_cons, Bool.and_eq_true] at h
    have hc : ¬(c = '"') := by
      intro hq
      simp [hq] at h
    rw [escQ, if_neg (fun hand => hc hand.1), ih _ h.2]

lemma scanInner_clean (cs : List Char) (h : strOK cs = true) (r : List Char) :
    scanInner (cs ++ '"' :: r) = some (cs, r) := by
  induction cs with
  | nil =>
    rw [List.nil_append, scanInner.eq_def]
    simp
  | cons c t ih =>
    rw [strOK, List.all_cons, Bool.and_eq_true] at h
    have hq : ¬(c = '"') := by intro hc; simp [hc] at h
    have hb : ¬(c = '\\') := by intro hc; simp [hc] at h
    rw [List.cons_append, scanInner.eq_def]
    simp only [if_neg hq, if_neg hb, ih h.2]
    rfl

/-! ## Number-token lemmas -/

/-- No character after `cs` may extend a number token. -/
def restOK (cs : List Char) : Bool :=
  match cs with
  | [] => true
  | c :: _ => !extChar c

lemma takeWhile_append_exact {p : Char → Bool} {a b : List Char}
    (ha : a.all p = true) (hb : ∀ c, b.head? = some c → p c = false) :
    (a ++ b).takeWhile p = a ∧ (a ++ b).dropWhile p = b := by
  induction a with
  | nil =>
    cases b with
    | nil => exact ⟨rfl, rfl⟩
    | cons c t =>
      have := hb c rfl
      simp [List.takeWhile_cons, List.dropWhile_cons, this]
  | cons x xs ih =>
    rw [List.all_cons, Bool.and_eq_true] at ha
    obtain ⟨h1, h2⟩ := ih ha.2
    simp [List.takeWhile_cons, List.dropWhile_cons, ha.1, h1, h2]

lemma isEmpty_true_eq_nil {α : Type} {l : List α} (h : l.isEmpty = true) : l = [] := by
  cases l with
  | nil => rfl
  | cons x xs => simp at h

lemma all_takeWhile (p : Char → Bool) (l : List Char) : (l.takeWhile p).all p = true := by
  induction l with
  | nil => rfl
  | cons c t ih =>
    rw [List.takeWhile_cons]
    by_cases h : p c = true
    · simp [h, ih]
    · have hc : p c = false := by simpa using h
      simp [hc]

lemma restOK_head_digit {r : List Char} (hr : restOK r = true) :
    ∀ c, r.head? = some c → Char.isDigit c = false := by
  intro c hc
  cases r with
  | nil => cases hc
  | cons c0 t0 =>
    cases hc
    simp only [restOK, extChar, Bool.not_eq_true', Bool.or_eq_false_iff] at hr
    exact hr.1.1.1

lemma restOK_facts {c : Char} {t : List Char} (hr : restOK (c :: t) = true) :
    Char.isDigit c = false ∧ c ≠ '.' ∧ c ≠ 'e' ∧ c ≠ 'E' := by
  simp only [restOK, extChar, Bool.not_eq_true', Bool.or_eq_false_iff,
    decide_eq_false_iff_not] at hr
  exact ⟨hr.1.1.1, hr.1.1.2, hr.1.2, hr.2⟩

lemma scanExpAfterE_shape_append {e : Char} {t r : List Char}
    (ht : shapeExpAfterE t = true) (hr : restOK r = true) :
    scanExpAfterE e (t ++ r) = (e :: t, r) := by
  cases t with
  | nil => simp [shapeExpAfterE] at ht
  | cons s t2 =>
    rw [List.cons_append]
    by_cases hs : s = '+' ∨ s = '-'
    · rw [shapeExpAfterE, if_pos hs, Bool.and_eq_true] at ht
      have ht2 : t2.takeWhile Char.isDigit = t2 := by
        conv_rhs => rw [← List.takeWhile_append_dropWhile (p := Char.isDigit) (l := t2)]
        rw [isEmpty_true_eq_nil ht.2, List.append_nil]
      obtain ⟨htk, hdr⟩ := takeWhile_append_exact (a := t2) (b := r)
        (ht2 ▸ all_takeWhile Char.isDigit t2) (restOK_head_digit hr)
      have hne : t2.isEmpty = false := by
        rw [← ht2]
        simpa using ht.1
      rw [scanExpAfterE, if_pos hs, htk, hdr, if_neg (by simp [hne])]
    · rw [shapeExpAfterE, if_neg hs, Bool.and_eq_true] at ht
      have ht2 : (s :: t2).takeWhile Char.isDigit = s :: t2 := by
        conv_rhs => rw [← List.takeWhile_append_dropWhile (p := Char.isDigit) (l := s :: t2)]
        rw [isEmpty_true_eq_nil ht.2, List.append_nil]
      obtain ⟨htk, hdr⟩ := takeWhile_append_exact (a := s :: t2) (b := r)
        (ht2 ▸ all_takeWhile Char.isDigit (s :: t2)) (restOK_head_digit hr)
      rw [List.cons_append] at htk hdr
      rw [scanExpAfterE, if_neg hs, htk, hdr, if_neg (by simp)]

lemma scanExp_shape_append {ex r : List Char} (hx : shapeExp ex = true)
    (hr : restOK r = true) : scanExp (ex ++ r) = (ex, r) := by
  cases ex with
  | nil =>
    rw [List.nil_append]
    cases r with
    | nil => rfl
    | cons c t =>
      have hf := restOK_facts hr
      rw [scanExp, if_neg (by rintro (h | h) <;> simp [h] at hf)]
  | cons e t =>
    rw [shapeExp, Bool.and_eq_true] at hx
    rw [List.cons_append, scanExp, if_pos (of_decide_eq_true hx.1)]
    exact scanExpAfterE_shape_append hx.2 hr

lemma shapeExp_head_not_digit {xs : List Char} (h : shapeExp xs = true) :
    ∀ c, xs.head? = some c → Char.isDigit c = false := by
  intro c hc
  cases xs with
  | nil => cases hc
  | cons e t =>
    cases hc
    rw [shapeExp, Bool.and_eq_true] at h
    rcases of_decide_eq_true h.1 with h1 | h1 <;> (subst h1; decide)

lemma shapeFrac_head_not_digit {xs : List Char} (h : shapeFrac xs = true) :
    ∀ c, xs.head? = some c → Char.isDigit c = false := by
  intro c hc
  cases xs with
  | nil => cases hc
  | cons c0 t =>
    cases hc
    by_cases hdot : c = '.'
    · subst hdot; decide
    · rw [shapeFrac, if_neg hdot] at h
      exact shapeExp_head_not_digit h c rfl

lemma scanFracExp_shape_append {rest1 r : List Char} (h : shapeFrac rest1 = true)
    (hr : restOK r = true) :
    ∃ fr ex, rest1 = fr ++ ex ∧ scanFrac (rest1 ++ r) = (fr, ex ++ r) ∧
      scanExp (ex ++ r) = (ex, r) := by
  cases rest1 with
  | nil =>
    refine ⟨[], [], rfl, ?_, scanExp_shape_append rfl hr⟩
    rw [List.nil_append]
    cases r with
    | nil => rfl
    | cons c t =>
      have hf := restOK_facts hr
      rw [scanFrac, if_neg hf.2.1]
  | cons c t =>
    by_cases hdot : c = '.'
    · subst hdot
      rw [shapeFrac, if_pos rfl, Bool.and_eq_true] at h
      have hts : t = t.takeWhile Char.isDigit ++ t.dropWhile Char.isDigit :=
        (List.takeWhile_append_dropWhile (p := Char.isDigit) (l := t)).symm
      have hbound : ∀ cc, (t.dropWhile Char.isDigit ++ r).head? = some cc →
          Char.isDigit cc = false := by
        intro cc hcc
        cases hd : t.dropWhile Char.isDigit with
        | nil =>
          rw [hd, List.nil_append] at hcc
          exact restOK_head_digit hr cc hcc
        | cons c2 t2 =>
          rw [hd, List.cons_append, List.head?_cons] at hcc
          cases hcc
          exact shapeExp_head_not_digit (hd ▸ h.2) _ (by simp)
      obtain ⟨htk, hdr⟩ := takeWhile_append_exact (a := t.takeWhile Char.isDigit)
        (b := t.dropWhile Char.isDigit ++ r) (all_takeWhile Char.isDigit t) hbound
      refine ⟨'.' :: t.takeWhile Char.isDigit, t.dropWhile Char.isDigit,
        by rw [List.cons_append, ← hts], ?_, scanExp_shape_append h.2 hr⟩
      have hassoc : t ++ r = t.takeWhile Char.isDigit ++ (t.dropWhile Char.isDigit ++ r) := by
        conv_lhs => rw [hts]
        rw [List.append_assoc]
      rw [List.cons_append, scanFrac, if_pos rfl, hassoc, htk, hdr,
        if_neg (by simpa using h.1)]
    · rw [shapeFrac, if_neg hdot] at h
      refine ⟨[], c :: t, rfl, ?_, scanExp_shape_append h hr⟩
      rw [List.cons_append, scanFrac, if_neg hdot]

lemma scanNumBody_shape_append {b r : List Char}
    (hb : (!(b.takeWhile Char.isDigit).isEmpty &&
      shapeFrac (b.dropWhile Char.isDigit)) = true)
    (hr : restOK r = true) :
    scanNumBody (b ++ r) = some (b, r) := by
  rw [Bool.and_eq_true] at hb
  have hbs : b = b.takeWhile Char.isDigit ++ b.dropWhile Char.isDigit :=
    (List.takeWhile_append_dropWhile (p := Char.isDigit) (l := b)).symm
  have hbound : ∀ cc, (b.dropWhile Char.isDigit ++ r).head? = some cc →
      Char.isDigit cc = false := by
    intro cc hcc
    cases hd : b.dropWhile Char.isDigit with
    | nil =>
      rw [hd, List.nil_append] at hcc
      exact restOK_head_digit hr cc hcc
    | cons c2 t2 =>
      rw [hd, List.cons_append, List.head?_cons] at hcc
      cases hcc
      exact shapeFrac_head_not_digit (hd ▸ hb.2) _ (by simp)
  obtain ⟨htk, hdr⟩ := takeWhile_append_exact (a := b.takeWhile Char.isDigit)
    (b := b.dropWhile Char.isDigit ++ r) (all_takeWhile Char.isDigit b) hbound
  have hassoc : b ++ r = b.takeWhile Char.isDigit ++ (b.dropWhile Char.isDigit ++ r) := by
    conv_lhs => rw [hbs]
    rw [List.append_assoc]
  obtain ⟨fr, ex, hsplit, hfr, hex⟩ := scanFracExp_shape_append hb.2 hr
  rw [scanNumBody, hassoc, htk, hdr, if_neg (by simpa using hb.1)]
  simp only [hfr, hex]
  have : b = b.takeWhile Char.isDigit ++ fr ++ ex := by
    rw [List.append_assoc, ← hsplit, ← hbs]
  rw [← this]

lemma scanNumberTok_shape_append {s r : List Char} (hs : numTokenShape s = true)
    (hr : restOK r = true) : scanNumberTok (s ++ r) = some (s, r) := by
  cases s with
  | nil => simp [numTokenShape] at hs
  | cons c t =>
    rw [numTokenShape] at hs
    by_cases hneg : c = '-'
    · rw [if_pos hneg] at hs
      rw [List.cons_append, scanNumberTok, if_pos hneg, scanNumBody_shape_append hs hr]
      rfl
    · rw [if_neg hneg] at hs
      rw [List.cons_append, scanNumberTok, if_neg hneg, ← List.cons_append,
        scanNumBody_shape_append hs hr]

lemma numTokenShape_head {s : List Char} (hs : numTokenShape s = true) :
    ∃ c t, s = c :: t ∧ (c = '-' ∨ Char.isDigit c = true) := by
  cases s with
  | nil => simp [numTokenShape] at hs
  | cons c t =>
    refine ⟨c, t, rfl, ?_⟩
    by_cases hneg : c = '-'
    · exact Or.inl hneg
    · right
      rw [numTokenShape, if_neg hneg] at hs
      by_cases hd : Char.isDigit c = true
      · exact hd
      · rw [List.takeWhile_cons, if_neg hd] at hs
        simp at hs

end Valu3

namespace Valu3

/-- The character-level shape of a nonempty array's serialization after the
opening bracket and first indentation. -/
def arrayBodyData : List Value → Nat → List Char
  | [], _ => []
  | [x], d => (to_json_inner x (d + 1)).data ++ '\n' :: (List.replicate d '\t' ++ [']'])
  | x :: y :: xs, d =>
    (to_json_inner x (d + 1)).data ++ ',' :: '\n' :: '\t' ::
      (List.replicate d '\t' ++ arrayBodyData (y :: xs) d)

lemma joinArr (d : Nat) : ∀ (x : Value) (xs : List Value),
    (joinSep ("," ++ "\n\t" ++ tabs d) (arrayParts (x :: xs) d)).data ++
      ('\n' :: (List.replicate d '\t' ++ [']'])) = arrayBodyData (x :: xs) d := by
  intro x xs
  induction xs generalizing x with
  | nil => simp [joinSep, arrayParts, arrayBodyData]
  | cons y ys ih =>
    rw [arrayBodyData, ← ih y]
    simp [joinSep, arrayParts, data_append, tabs_data, List.append_assoc]

lemma ser_array_data (x : Value) (xs : List Value) (d : Nat) :
    (to_json_inner (.array (x :: xs)) d).data =
      '[' :: '\n' :: '\t' :: (List.replicate d '\t' ++ arrayBodyData (x :: xs) d) := by
  rw [← joinArr d x xs]
  simp [to_json_inner, data_append, tabs_data, List.append_assoc]

lemma ser_array_nil (d : Nat) :
    (to_json_inner (.array []) d).data =
      '[' :: '\n' :: '\t' :: (List.replicate d '\t' ++
        ('\n' :: (List.replicate d '\t' ++ [']']))) := by
  simp [to_json_inner, arrayParts, joinSep, data_append, tabs_data, List.append_assoc]


/-- The character-level shape of a nonempty object's serialization after
the opening brace and first indentation. -/
def objectBodyData : List (ValueKey × Value) → Nat → List Char
  | [], _ => []
  | [(k, v)], d =>
    '"' :: (k.to_string.data ++ '"' :: ':' :: ' ' ::
      ((to_json_inner v (d + 1)).data ++ '\n' :: (List.replicate d '\t' ++ [rbrace])))
  | (k, v) :: e :: es, d =>
    '"' :: (k.to_string.data ++ '"' :: ':' :: ' ' ::
      ((to_json_inner v (d + 1)).data ++ ',' :: '\n' :: '\t' ::
        (List.replicate d '\t' ++ objectBodyData (e :: es) d)))

lemma joinObj (d : Nat) : ∀ (e : ValueKey × Value) (es : List (ValueKey × Value)),
    (joinSep "," (objectParts (e :: es) d)).data ++
      ('\n' :: (List.replicate d '\t' ++ [rbrace])) =
      '\n' :: '\t' :: (List.replicate d '\t' ++ objectBodyData (e :: es) d) := by
  intro e es
  induction es generalizing e with
  | nil =>
    obtain ⟨k, v⟩ := e
    simp [joinSep, objectParts, objectBodyData, data_append, tabs_data, rbrace,
      List.append_assoc]
  | cons e2 es2 ih =>
    obtain ⟨k, v⟩ := e
    rw [objectBodyData, ← ih e2]
    simp [joinSep, objectParts, data_append, tabs_data, List.append_assoc]

lemma ser_object_data (bk : Backing) (e : ValueKey × Value)
    (es : List (ValueKey × Value)) (d : Nat) :
    (to_json_inner (.object bk (e :: es)) d).data =
      lbrace :: '\n' :: '\t' :: (List.replicate d '\t' ++ objectBodyData (e :: es) d) := by
  rw [← joinObj d e es]
  simp [to_json_inner, data_append, lbrace, rbrace, tabs_data, List.append_assoc]

lemma ser_object_nil (bk : Backing) (d : Nat) :
    (to_json_inner (.object bk []) d).data =
      lbrace :: ('\n' :: (List.replicate d '\t' ++ [rbrace])) := by
  simp [to_json_inner, objectParts, joinSep, data_append, tabs_data, lbrace, rbrace,
    List.append_assoc]


lemma char_if_neg {c c2 : Char} (h : ¬c = c2) {α : Type} (a b : α) :
    (if c = c2 then a else b) = b := if_neg h

lemma char_if_pos {c : Char} {α : Type} (a b : α) : (if c = c then a else b) = a :=
  if_pos rfl

lemma restOK_cons (c : Char) (t : List Char) (h : extChar c = false) :
    restOK (c :: t) = true := by
  simp [restOK, h]

lemma replicate_tab_ws (d : Nat) : (List.replicate d '\t').all isWsChar = true := by
  simp [List.all_eq_true, isWsChar]

lemma proto_null (d : Nat) (pre rest : List Char) (fuel : Nat)
    (hpre : pre.all isWsChar = true)
    (hfuel : (pre ++ (to_json_inner .null d).data ++ rest).length + 1 ≤ fuel) :
    parseValue fuel (pre ++ (to_json_inner .null d).data ++ rest) = some (.null, rest) := by
  cases fuel with
  | zero => simp at hfuel
  | succ f =>
    rw [parseValue, List.append_assoc, skipWs_append_ws hpre]
    have hser : (to_json_inner .null d).data ++ rest = 'n' :: 'u' :: 'l' :: 'l' :: rest := rfl
    rw [hser, skipWs_cons_not (by decide)]
    simp [lbrace]


lemma proto_string (s : String) (hv : jsonShaped (.string s) = true) (d : Nat)
    (pre rest : List Char) (fuel : Nat)
    (hpre : pre.all isWsChar = true)
    (hfuel : (pre ++ (to_json_inner (.string s) d).data ++ rest).length + 1 ≤ fuel) :
    parseValue fuel (pre ++ (to_json_inner (.string s) d).data ++ rest) =
      some (.string s, rest) := by
  cases fuel with
  | zero => simp at hfuel
  | succ f =>
    rw [jsonShaped] at hv
    rw [parseValue, List.append_assoc, skipWs_append_ws hpre]
    have hser : (to_json_inner (.string s) d).data ++ rest =
        '"' :: (s.data ++ '"' :: rest) := by
      simp [to_json_inner, data_append, escQ_id none s.data hv, List.append_assoc]
    rw [hser, skipWs_cons_not (by decide)]
    simp only [lbrace]
    norm_num
    rw [scanInner_clean s.data hv rest]
    simp

lemma digit_not_special {c : Char} (h : Char.isDigit c = true) :
    isWsChar c = false ∧ c ≠ ']' ∧ c ≠ ',' ∧ c ≠ lbrace ∧ c ≠ '[' ∧ c ≠ '"' ∧
      c ≠ 't' ∧ c ≠ 'f' ∧ c ≠ 'n' := by
  refine ⟨?_, ?_, ?_, ?_, ?_, ?_, ?_, ?_, ?_⟩
  · rcases hw : isWsChar c with _ | _
    · rfl
    · exfalso
      simp only [isWsChar, Bool.or_eq_true, decide_eq_true_eq] at hw
      rcases hw with h1 | h1 | h1 | h1 <;> subst h1 <;> exact absurd h (by decide)
  all_goals intro h1
  all_goals subst h1
  all_goals exact absurd h (by decide)

lemma proto_number (n : Number) (hv : jsonShaped (.number n) = true) (d : Nat)
    (pre rest : List Char) (fuel : Nat)
    (hpre : pre.all isWsChar = true) (hrest : restOK rest = true)
    (hfuel : (pre ++ (to_json_inner (.number n) d).data ++ rest).length + 1 ≤ fuel) :
    parseValue fuel (pre ++ (to_json_inner (.number n) d).data ++ rest) =
      some (.number n, rest) := by
  cases fuel with
  | zero => simp at hfuel
  | succ f =>
    rw [jsonShaped, numCanon, Bool.and_eq_true] at hv
    obtain ⟨c, t0, hct, hc⟩ := numTokenShape_head hv.2
    have hser : (to_json_inner (.number n) d).data = n.display.data := rfl
    have hscan := scanNumberTok_shape_append hv.2 hrest
    rw [parseValue, List.append_assoc, skipWs_append_ws hpre, hser, hct, List.cons_append,
      skipWs_cons_not ?hws]
    case hws =>
      rcases hc with rfl | hd
      · decide
      · exact (digit_not_special hd).1
    have hnot : c ≠ lbrace ∧ c ≠ '[' ∧ c ≠ '"' ∧ c ≠ 't' ∧ c ≠ 'f' ∧ c ≠ 'n' := by
      rcases hc with rfl | hd
      · refine ⟨by decide, by decide, by decide, by decide, by decide, by decide⟩
      · obtain ⟨-, -, -, h4, h5, h6, h7, h8, h9⟩ := digit_not_special hd
        exact ⟨h4, h5, h6, h7, h8, h9⟩
    simp only [if_neg hnot.1, if_neg hnot.2.1, if_neg hnot.2.2.1, if_neg hnot.2.2.2.1,
      if_neg hnot.2.2.2.2.1, if_neg hnot.2.2.2.2.2]
    have hv1 := hv.1
    have hok : Number.try_from n.display = .ok n := by
      cases htf : Number.try_from n.display with
      | ok m =>
        rw [htf] at hv1
        simp only [decide_eq_true_eq] at hv1
        rw [hv1]
      | error e =>
        rw [htf] at hv1
        simp at hv1
    rw [← List.cons_append, ← hct, hscan]
    have hok2 : Number.try_from (String.mk n.display.data) = .ok n := hok
    simp [hok2]


lemma proto_array_nil (d : Nat) (pre rest : List Char) (fuel : Nat)
    (hpre : pre.all isWsChar = true)
    (hfuel : (pre ++ (to_json_inner (.array []) d).data ++ rest).length + 1 ≤ fuel) :
    parseValue fuel (pre ++ (to_json_inner (.array []) d).data ++ rest) =
      some (.array [], rest) := by
  cases fuel with
  | zero => simp at hfuel
  | succ f =>
    rw [parseValue, List.append_assoc, skipWs_append_ws hpre, ser_array_nil d]
    simp only [List.cons_append, List.append_assoc]
    rw [skipWs_cons_not (by decide)]
    simp [lbrace, skipWs_cons_ws, skipWs_append_ws, replicate_tab_ws, isWsChar,
      skipWs_cons_not]


lemma ser_head {v : Value} (hv : jsonShaped v = true) (d : Nat) :
    ∃ c t, (to_json_inner v d).data = c :: t ∧ isWsChar c = false ∧ c ≠ ']' := by
  cases v with
  | object bk es =>
    cases es with
    | nil => exact ⟨lbrace, _, ser_object_nil bk d, by decide, by decide⟩
    | cons e es2 => exact ⟨lbrace, _, ser_object_data bk e es2 d, by decide, by decide⟩
  | array xs =>
    cases xs with
    | nil => exact ⟨'[', _, ser_array_nil d, by decide, by decide⟩
    | cons x xs2 => exact ⟨'[', _, ser_array_data x xs2 d, by decide, by decide⟩
  | string s =>
    refine ⟨'"', escQ none s.data ++ ['"'], ?_, by decide, by decide⟩
    simp [to_json_inner, data_append]
  | number n =>
    rw [jsonShaped, numCanon, Bool.and_eq_true] at hv
    obtain ⟨c, t0, hct, hc⟩ := numTokenShape_head hv.2
    refine ⟨c, t0, hct, ?_, ?_⟩
    · rcases hc with rfl | hd
      · decide
      · exact (digit_not_special hd).1
    · rcases hc with rfl | hd
      · decide
      · exact (digit_not_special hd).2.1
  | boolean b =>
    cases b with
    | false => exact ⟨'f', ['a', 'l', 's', 'e'], rfl, by decide, by decide⟩
    | true => exact ⟨'t', ['r', 'u', 'e'], rfl, by decide, by decide⟩
  | null => exact ⟨'n', ['u', 'l', 'l'], rfl, by decide, by decide⟩
  | undefined => simp [jsonShaped] at hv
  | datetime dt => simp [jsonShaped] at hv

lemma proto_array_cons (x : Value) (xs : List Value) (hx : jsonShaped x = true)
    (d : Nat) (pre rest : List Char) (fuel : Nat)
    (hpre : pre.all isWsChar = true) (hrest : restOK rest = true)
    (hLI : ∀ (pre2 rest2 : List Char) (fuel2 : Nat), pre2.all isWsChar = true →
      restOK rest2 = true →
      (pre2 ++ arrayBodyData (x :: xs) d ++ rest2).length + 2 ≤ fuel2 →
      parseItems fuel2 (pre2 ++ arrayBodyData (x :: xs) d ++ rest2) = some (x :: xs, rest2))
    (hfuel : (pre ++ (to_json_inner (.array (x :: xs)) d).data ++ rest).length + 1 ≤ fuel) :
    parseValue fuel (pre ++ (to_json_inner (.array (x :: xs)) d).data ++ rest) =
      some (.array (x :: xs), rest) := by
  cases fuel with
  | zero => simp at hfuel
  | succ f =>
    obtain ⟨c2, t2, hc2, hc2ws, hc2br⟩ := ser_head hx (d + 1)
    have habd : ∃ t3, arrayBodyData (x :: xs) d ++ rest = c2 :: t3 := by
      cases xs with
      | nil => exact ⟨_, by rw [arrayBodyData, List.append_assoc, hc2, List.cons_append]⟩
      | cons y ys => exact ⟨_, by rw [arrayBodyData, List.append_assoc, hc2, List.cons_append]⟩
    obtain ⟨t3, ht3⟩ := habd
    rw [parseValue, List.append_assoc, skipWs_append_ws hpre, ser_array_data]
    simp only [List.cons_append, List.append_assoc]
    rw [skipWs_cons_not (by decide)]
    have hsk : skipWs ('\n' :: '\t' :: (List.replicate d '\t' ++
        (arrayBodyData (x :: xs) d ++ rest))) = arrayBodyData (x :: xs) d ++ rest := by
      rw [skipWs_cons_ws (by decide), skipWs_cons_ws (by decide),
        skipWs_append_ws (replicate_tab_ws d), ht3, skipWs_cons_not hc2ws]
    simp only []
    rw [char_if_neg (show ¬('[' : Char) = lbrace by decide)]
    simp only [if_true]
    rw [hsk, ht3]
    have hfuel2 : ([] ++ arrayBodyData (x :: xs) d ++ rest).length + 2 ≤ f := by
      rw [ser_array_data] at hfuel
      simp only [List.length_append, List.length_cons, List.length_replicate,
        List.nil_append] at hfuel ⊢
      omega
    split
    · rename_i heq
      exact absurd (List.head_eq_of_cons_eq heq) hc2br
    · rw [← ht3]
      have hres := hLI [] rest f rfl hrest hfuel2
      rw [List.nil_append] at hres
      rw [hres]


lemma proto_items (x : Value) (xs : List Value) (d : Nat) (pre rest : List Char)
    (fuel : Nat) (hpre : pre.all isWsChar = true) (hrest : restOK rest = true)
    (hLVx : ∀ (d2 : Nat) (pre2 rest2 : List Char) (fuel2 : Nat),
      pre2.all isWsChar = true → restOK rest2 = true →
      (pre2 ++ (to_json_inner x d2).data ++ rest2).length + 1 ≤ fuel2 →
      parseValue fuel2 (pre2 ++ (to_json_inner x d2).data ++ rest2) = some (x, rest2))
    (hLIrec : ∀ (y : Value) (ys : List Value), xs = y :: ys →
      ∀ (pre2 rest2 : List Char) (fuel2 : Nat), pre2.all isWsChar = true →
      restOK rest2 = true →
      (pre2 ++ arrayBodyData (y :: ys) d ++ rest2).length + 2 ≤ fuel2 →
      parseItems fuel2 (pre2 ++ arrayBodyData (y :: ys) d ++ rest2) = some (y :: ys, rest2))
    (hfuel : (pre ++ arrayBodyData (x :: xs) d ++ rest).length + 2 ≤ fuel) :
    parseItems fuel (pre ++ arrayBodyData (x :: xs) d ++ rest) = some (x :: xs, rest) := by
  cases fuel with
  | zero => simp at hfuel
  | succ f =>
    rw [parseItems]
    cases xs with
    | nil =>
      rw [arrayBodyData]
      have hin : pre ++ ((to_json_inner x (d + 1)).data ++
          '\n' :: (List.replicate d '\t' ++ [']'])) ++ rest =
          pre ++ (to_json_inner x (d + 1)).data ++
            ('\n' :: (List.replicate d '\t' ++ (']' :: rest))) := by
        simp [List.append_assoc]
      rw [hin, hLVx (d + 1) pre _ f hpre (restOK_cons _ _ (by decide)) ?hf1]
      case hf1 =>
        rw [arrayBodyData] at hfuel
        simp only [List.length_append, List.length_cons, List.length_replicate] at hfuel ⊢
        omega
      simp only []
      rw [skipWs_cons_ws (by decide), skipWs_append_ws (replicate_tab_ws d),
        skipWs_cons_not (by decide)]
      simp
    | cons y ys =>
      rw [arrayBodyData]
      have hin : pre ++ ((to_json_inner x (d + 1)).data ++
          ',' :: '\n' :: '\t' :: (List.replicate d '\t' ++ arrayBodyData (y :: ys) d)) ++
          rest =
          pre ++ (to_json_inner x (d + 1)).data ++
            (',' :: '\n' :: '\t' :: (List.replicate d '\t' ++
              (arrayBodyData (y :: ys) d ++ rest))) := by
        simp [List.append_assoc]
      rw [hin, hLVx (d + 1) pre _ f hpre (restOK_cons _ _ (by decide)) ?hf2]
      case hf2 =>
        rw [arrayBodyData] at hfuel
        simp only [List.length_append, List.length_cons, List.length_replicate] at hfuel ⊢
        omega
      simp only []
      rw [skipWs_cons_not (by decide)]
      have htail : '\n' :: '\t' :: (List.replicate d '\t' ++
          (arrayBodyData (y :: ys) d ++ rest)) =
          ('\n' :: '\t' :: List.replicate d '\t') ++ arrayBodyData (y :: ys) d ++ rest := by
        simp [List.append_assoc]
      simp only []
      rw [htail, hLIrec y ys rfl _ rest f (by simp [replicate_tab_ws d, isWsChar]) hrest ?hf3]
      case hf3 =>
        simp only [List.length_append, List.length_cons, List.length_replicate] at hfuel ⊢
        rw [arrayBodyData] at hfuel
        simp only [List.length_append, List.length_cons, List.length_replicate] at hfuel
        omega


lemma mk_data (s : String) : String.mk s.data = s := rfl

lemma proto_pairs (k : ValueKey) (v : Value) (es : List (ValueKey × Value)) (d : Nat)
    (pre rest : List Char) (fuel : Nat)
    (hkey : keyOK k = true)
    (hpre : pre.all isWsChar = true) (hrest : restOK rest = true)
    (hLVv : ∀ (d2 : Nat) (pre2 rest2 : List Char) (fuel2 : Nat),
      pre2.all isWsChar = true → restOK rest2 = true →
      (pre2 ++ (to_json_inner v d2).data ++ rest2).length + 1 ≤ fuel2 →
      parseValue fuel2 (pre2 ++ (to_json_inner v d2).data ++ rest2) = some (v, rest2))
    (hLPrec : ∀ (e2 : ValueKey × Value) (es2 : List (ValueKey × Value)), es = e2 :: es2 →
      ∀ (pre2 rest2 : List Char) (fuel2 : Nat), pre2.all isWsChar = true →
      restOK rest2 = true →
      (pre2 ++ objectBodyData (e2 :: es2) d ++ rest2).length + 2 ≤ fuel2 →
      parsePairs fuel2 (pre2 ++ objectBodyData (e2 :: es2) d ++ rest2) =
        some (e2 :: es2, rest2))
    (hfuel : (pre ++ objectBodyData ((k, v) :: es) d ++ rest).length + 2 ≤ fuel) :
    parsePairs fuel (pre ++ objectBodyData ((k, v) :: es) d ++ rest) =
      some ((k, v) :: es, rest) := by
  cases k with
  | number m => simp [keyOK] at hkey
  | string s =>
  rw [keyOK] at hkey
  cases fuel with
  | zero => simp at hfuel
  | succ f =>
    rw [parsePairs]
    cases es with
    | nil =>
      have hin : pre ++ objectBodyData [(ValueKey.string s, v)] d ++ rest =
          pre ++ '"' :: (s.data ++ '"' :: ':' :: ' ' ::
            ((to_json_inner v (d + 1)).data ++
              '\n' :: (List.replicate d '\t' ++ (rbrace :: rest)))) := by
        rw [objectBodyData]
        simp [ValueKey.to_string, List.append_assoc]
      rw [hin, skipWs_append_ws hpre, skipWs_cons_not (by decide)]
      simp only []
      rw [scanInner_clean s.data hkey]
      simp only []
      rw [skipWs_cons_not (by decide)]
      simp only []
      have h2 : ' ' :: ((to_json_inner v (d + 1)).data ++
          '\n' :: (List.replicate d '\t' ++ (rbrace :: rest))) =
          [' '] ++ (to_json_inner v (d + 1)).data ++
            ('\n' :: (List.replicate d '\t' ++ (rbrace :: rest))) := by
        simp
      rw [h2, hLVv (d + 1) [' '] _ f (by decide) (restOK_cons _ _ (by decide)) ?hfv]
      case hfv =>
        rw [objectBodyData] at hfuel
        simp only [ValueKey.to_string, List.length_append, List.length_cons,
          List.length_replicate, List.length_singleton, List.length_nil] at hfuel ⊢
        omega
      simp only []
      rw [skipWs_cons_ws (by decide), skipWs_append_ws (replicate_tab_ws d),
        skipWs_cons_not (by decide)]
      simp [rbrace, mk_data]
    | cons e2 es2 =>
      have hin : pre ++ objectBodyData ((ValueKey.string s, v) :: e2 :: es2) d ++ rest =
          pre ++ '"' :: (s.data ++ '"' :: ':' :: ' ' ::
            ((to_json_inner v (d + 1)).data ++
              ',' :: '\n' :: '\t' :: (List.replicate d '\t' ++
                (objectBodyData (e2 :: es2) d ++ rest)))) := by
        rw [objectBodyData]
        simp [ValueKey.to_string, List.append_assoc]
      rw [hin, skipWs_append_ws hpre, skipWs_cons_not (by decide)]
      simp only []
      rw [scanInner_clean s.data hkey]
      simp only []
      rw [skipWs_cons_not (by decide)]
      simp only []
      have h2 : ' ' :: ((to_json_inner v (d + 1)).data ++
          ',' :: '\n' :: '\t' :: (List.replicate d '\t' ++
            (objectBodyData (e2 :: es2) d ++ rest))) =
          [' '] ++ (to_json_inner v (d + 1)).data ++
            (',' :: '\n' :: '\t' :: (List.replicate d '\t' ++
              (objectBodyData (e2 :: es2) d ++ rest))) := by
        simp
      rw [h2, hLVv (d + 1) [' '] _ f (by decide) (restOK_cons _ _ (by decide)) ?hfv2]
      case hfv2 =>
        rw [objectBodyData] at hfuel
        simp only [ValueKey.to_string, List.length_append, List.length_cons,
          List.length_replicate, List.length_singleton, List.length_nil] at hfuel ⊢
        omega
      simp only []
      rw [skipWs_cons_not (by decide)]
      simp only []
      have h3 : '\n' :: '\t' :: (List.replicate d '\t' ++
          (objectBodyData (e2 :: es2) d ++ rest)) =
          ('\n' :: '\t' :: List.replicate d '\t') ++ objectBodyData (e2 :: es2) d ++ rest := by
        simp
      rw [h3, hLPrec e2 es2 rfl _ rest f (by simp [replicate_tab_ws, isWsChar]) hrest ?hfp]
      case hfp =>
        rw [objectBodyData] at hfuel
        simp only [ValueKey.to_string, List.length_append, List.length_cons,
          List.length_replicate, List.length_singleton, List.length_nil] at hfuel ⊢
        omega


lemma insertKV_not_mem {acc : List (ValueKey × Value)} {k : ValueKey} {v : Value}
    (h : ∀ e ∈ acc, e.1 ≠ k) : insertKV acc k v = acc ++ [(k, v)] := by
  rw [insertKV, if_neg]
  rw [List.find?_eq_none.mpr (fun x hx => by simpa using h x hx)]
  simp

lemma collectPairs_nodup : ∀ (es acc : List (ValueKey × Value)),
    (∀ e ∈ acc, ∀ e2 ∈ es, e.1 ≠ e2.1) → (es.map (fun e => e.1)).Nodup →
    collectPairs es acc = acc ++ es := by
  intro es
  induction es with
  | nil => intro acc _ _; simp [collectPairs]
  | cons p rest ih =>
    intro acc hdisj hnd
    obtain ⟨k, v⟩ := p
    rw [collectPairs, insertKV_not_mem (fun e he => hdisj e he (k, v) (by simp))]
    rw [List.map_cons, List.nodup_cons] at hnd
    rw [ih (acc ++ [(k, v)]) ?_ hnd.2]
    · simp
    · intro e he e2 he2
      rcases List.mem_append.mp he with he | he
      · exact hdisj e he e2 (List.mem_cons_of_mem _ he2)
      · rw [List.mem_singleton] at he
        subst he
        intro hkk
        exact hnd.1 (hkk ▸ List.mem_map_of_mem (fun e => e.1) he2)

lemma proto_object_nil (bk : Backing) (hv : jsonShaped (.object bk []) = true)
    (d : Nat) (pre rest : List Char) (fuel : Nat)
    (hpre : pre.all isWsChar = true)
    (hfuel : (pre ++ (to_json_inner (.object bk []) d).data ++ rest).length + 1 ≤ fuel) :
    parseValue fuel (pre ++ (to_json_inner (.object bk []) d).data ++ rest) =
      some (.object bk [], rest) := by
  have hbk : bk = Backing.hashMap := by
    rw [jsonShaped] at hv
    simp only [Bool.and_eq_true, decide_eq_true_eq] at hv
    exact hv.1.1.1
  subst hbk
  cases fuel with
  | zero => simp at hfuel
  | succ f =>
    rw [parseValue, List.append_assoc, skipWs_append_ws hpre, ser_object_nil]
    simp only [List.cons_append, List.append_assoc]
    rw [skipWs_cons_not (by decide)]
    simp only []
    simp only [if_true]
    simp only [List.nil_append]
    rw [skipWs_cons_ws (by decide), skipWs_append_ws (replicate_tab_ws d),
      skipWs_cons_not (by decide)]
    simp only []
    simp only [if_true]

lemma proto_object_cons (e : ValueKey × Value) (es : List (ValueKey × Value))
    (hv : jsonShaped (.object Backing.hashMap (e :: es)) = true)
    (d : Nat) (pre rest : List Char) (fuel : Nat)
    (hpre : pre.all isWsChar = true)
    (hLP : ∀ (pre2 rest2 : List Char) (fuel2 : Nat), pre2.all isWsChar = true →
      restOK rest2 = true →
      (pre2 ++ objectBodyData (e :: es) d ++ rest2).length + 2 ≤ fuel2 →
      parsePairs fuel2 (pre2 ++ objectBodyData (e :: es) d ++ rest2) =
        some (e :: es, rest2))
    (hrest : restOK rest = true)
    (hfuel : (pre ++ (to_json_inner (.object Backing.hashMap (e :: es)) d).data ++
      rest).length + 1 ≤ fuel) :
    parseValue fuel (pre ++ (to_json_inner (.object Backing.hashMap (e :: es)) d).data ++
      rest) = some (.object Backing.hashMap (e :: es), rest) := by
  cases fuel with
  | zero => simp at hfuel
  | succ f =>
    have hkey : keyOK e.1 = true := by
      rw [jsonShaped] at hv
      simp only [Bool.and_eq_true] at hv
      have := hv.1.2
      rw [List.all_cons, Bool.and_eq_true] at this
      exact this.1
    obtain ⟨s, hs⟩ : ∃ s, e.1 = ValueKey.string s := by
      cases he : e.1 with
      | string s => exact ⟨s, rfl⟩
      | number m => rw [he] at hkey; simp [keyOK] at hkey
    have hnd : ((e :: es).map (fun e => e.1)).Nodup := by
      rw [jsonShaped] at hv
      simp only [Bool.and_eq_true, decide_eq_true_eq] at hv
      exact hv.1.1.2
    have hobd : ∃ t3, objectBodyData (e :: es) d = '"' :: t3 := by
      obtain ⟨k, v⟩ := e
      cases es with
      | nil => exact ⟨_, by rw [objectBodyData]⟩
      | cons e2 es2 => exact ⟨_, by rw [objectBodyData]⟩
    obtain ⟨t3, ht3⟩ := hobd
    rw [parseValue, List.append_assoc, skipWs_append_ws hpre, ser_object_data]
    simp only [List.cons_append, List.append_assoc]
    rw [skipWs_cons_not (by decide)]
    simp only []
    simp only [if_true]
    rw [skipWs_cons_ws (by decide), skipWs_cons_ws (by decide),
      skipWs_append_ws (replicate_tab_ws d), ht3]
    simp only [List.cons_append]
    rw [skipWs_cons_not (by decide)]
    simp only []
    rw [char_if_neg (by decide), ← List.cons_append, ← ht3]
    have hres := hLP [] rest f rfl hrest ?hf
    case hf =>
      rw [ser_object_data] at hfuel
      simp only [List.length_append, List.length_cons, List.length_replicate,
        List.nil_append] at hfuel ⊢
      omega
    rw [List.nil_append] at hres
    rw [hres]
    simp only []
    rw [collectPairs_nodup (e :: es) [] (by simp) hnd, List.nil_append]


lemma proto_bool (b : Bool) (d : Nat) (pre rest : List Char) (fuel : Nat)
    (hpre : pre.all isWsChar = true)
    (hfuel : (pre ++ (to_json_inner (.boolean b) d).data ++ rest).length + 1 ≤ fuel) :
    parseValue fuel (pre ++ (to_json_inner (.boolean b) d).data ++ rest) =
      some (.boolean b, rest) := by
  cases fuel with
  | zero => simp at hfuel
  | succ f =>
    cases b with
    | true =>
      rw [parseValue, List.append_assoc, skipWs_append_ws hpre]
      have hser : (to_json_inner (.boolean true) d).data ++ rest =
          't' :: 'r' :: 'u' :: 'e' :: rest := rfl
      rw [hser, skipWs_cons_not (by decide)]
      simp [lbrace]
    | false =>
      rw [parseValue, List.append_assoc, skipWs_append_ws hpre]
      have hser : (to_json_inner (.boolean false) d).data ++ rest =
          'f' :: 'a' :: 'l' :: 's' :: 'e' :: rest := rfl
      rw [hser, skipWs_cons_not (by decide)]
      simp [lbrace]

mutual

lemma parse_ser_value (v : Value) (hv : jsonShaped v = true)
    (d : Nat) (pre rest : List Char) (fuel : Nat)
    (hpre : pre.all isWsChar = true) (hrest : restOK rest = true)
    (hfuel : (pre ++ (to_json_inner v d).data ++ rest).length + 1 ≤ fuel) :
    parseValue fuel (pre ++ (to_json_inner v d).data ++ rest) = some (v, rest) := by
  cases v with
  | null => exact proto_null d pre rest fuel hpre hfuel
  | boolean b => exact proto_bool b d pre rest fuel hpre hfuel
  | string s => exact proto_string s hv d pre rest fuel hpre hfuel
  | number n => exact proto_number n hv d pre rest fuel hpre hrest hfuel
  | undefined => rw [jsonShaped] at hv; exact absurd hv (by decide)
  | datetime dt => rw [jsonShaped] at hv; exact absurd hv (by decide)
  | array xs =>
    cases xs with
    | nil => exact proto_array_nil d pre rest fuel hpre hfuel
    | cons x xs2 =>
      rw [jsonShaped] at hv
      exact proto_array_cons x xs2
        (by rw [jsonShapedList, Bool.and_eq_true] at hv; exact hv.1)
        d pre rest fuel hpre hrest
        (fun pre2 rest2 fuel2 hp2 hr2 hf2 =>
          parse_ser_items x xs2 hv d pre2 rest2 fuel2 hp2 hr2 hf2)
        hfuel
  | object bk es =>
    cases es with
    | nil => exact proto_object_nil bk hv d pre rest fuel hpre hfuel
    | cons e es2 =>
      have hbk : bk = Backing.hashMap := by
        rw [jsonShaped] at hv
        simp only [Bool.and_eq_true, decide_eq_true_eq] at hv
        exact hv.1.1.1
      subst hbk
      have hkeys : ((e :: es2).all (fun e2 => keyOK e2.1)) = true := by
        rw [jsonShaped] at hv
        simp only [Bool.and_eq_true] at hv
        exact hv.1.2
      have hsh : jsonShapedEntries (e :: es2) = true := by
        rw [jsonShaped] at hv
        simp only [Bool.and_eq_true] at hv
        exact hv.2
      exact proto_object_cons e es2 hv d pre rest fuel hpre
        (fun pre2 rest2 fuel2 hp2 hr2 hf2 =>
          parse_ser_pairs e.1 e.2 es2 hkeys hsh d pre2 rest2 fuel2 hp2 hr2 hf2)
        hrest hfuel
termination_by sizeOf v

lemma parse_ser_items (x : Value) (xs : List Value)
    (hsh : jsonShapedList (x :: xs) = true)
    (d : Nat) (pre rest : List Char) (fuel : Nat)
    (hpre : pre.all isWsChar = true) (hrest : restOK rest = true)
    (hfuel : (pre ++ arrayBodyData (x :: xs) d ++ rest).length + 2 ≤ fuel) :
    parseItems fuel (pre ++ arrayBodyData (x :: xs) d ++ rest) = some (x :: xs, rest) := by
  have hx : jsonShaped x = true := by
    rw [jsonShapedList, Bool.and_eq_true] at hsh
    exact hsh.1
  exact proto_items x xs d pre rest fuel hpre hrest
    (fun d2 pre2 rest2 fuel2 hp2 hr2 hf2 =>
      parse_ser_value x hx d2 pre2 rest2 fuel2 hp2 hr2 hf2)
    (fun y ys heq pre2 rest2 fuel2 hp2 hr2 hf2 =>
      parse_ser_items y ys
        (by rw [jsonShapedList, Bool.and_eq_true] at hsh; exact heq ▸ hsh.2)
        d pre2 rest2 fuel2 hp2 hr2 hf2)
    hfuel
termination_by sizeOf (x :: xs)

lemma parse_ser_pairs (k : ValueKey) (v : Value) (es : List (ValueKey × Value))
    (hkeys : (((k, v) :: es).all (fun e2 => keyOK e2.1)) = true)
    (hsh : jsonShapedEntries ((k, v) :: es) = true)
    (d : Nat) (pre rest : List Char) (fuel : Nat)
    (hpre : pre.all isWsChar = true) (hrest : restOK rest = true)
    (hfuel : (pre ++ objectBodyData ((k, v) :: es) d ++ rest).length + 2 ≤ fuel) :
    parsePairs fuel (pre ++ objectBodyData ((k, v) :: es) d ++ rest) =
      some ((k, v) :: es, rest) := by
  have hkey : keyOK k = true := by
    rw [List.all_cons, Bool.and_eq_true] at hkeys
    exact hkeys.1
  have hjv : jsonShaped v = true := by
    rw [jsonShapedEntries, Bool.and_eq_true] at hsh
    exact hsh.1
  exact proto_pairs k v es d pre rest fuel hkey hpre hrest
    (fun d2 pre2 rest2 fuel2 hp2 hr2 hf2 =>
      parse_ser_value v hjv d2 pre2 rest2 fuel2 hp2 hr2 hf2)
    (fun e2 es2 heq pre2 rest2 fuel2 hp2 hr2 hf2 =>
      parse_ser_pairs e2.1 e2.2 es2
        (by rw [List.all_cons, Bool.and_eq_true] at hkeys; exact heq ▸ hkeys.2)
        (by rw [jsonShapedEntries, Bool.and_eq_true] at hsh; exact heq ▸ hsh.2)
        d pre2 rest2 fuel2 hp2 hr2 hf2)
    hfuel
termination_by sizeOf ((k, v) :: es)

end

lemma round_trip_shaped (v : Value) (hv : jsonShaped v = true) :
    payload_to_value (v.to_json .Indented) = .ok v := by
  rw [payload_to_value, Value.to_json]
  have h := parse_ser_value v hv 0 [] [] ((to_json_inner v 0).data.length + 1)
    rfl rfl (by simp)
  rw [List.nil_append, List.append_nil] at h
  rw [h]
  simp [skipWs]


/-- C1 (counterexample to the original claim): the JSON-compatible value
`Number { u8: Some(5) }` serializes to the text `5`, which the parser's
`TryFrom<&str>` cascade reads back into the `i32` slot, so the round trip
returns a different `Number` than the one serialized. -/
theorem json_round_trip_counterexample :
    payload_to_value ((Value.number { u8 := some 5 }).to_json .Indented) ≠
      Except.ok (Value.number { u8 := some 5 }) := by
  intro h
  have h1 : payload_to_value ((Value.number { u8 := some 5 }).to_json .Indented) =
      Except.ok (Value.number { i32 := some 5 }) := rfl
  rw [h1] at h
  simp only [Except.ok.injEq, Value.number.injEq] at h
  have h2 := congrArg Number.u8 h
  simp at h2

/-- C1 (amended): for every `Value` built only from JSON-compatible shapes
whose numbers are canonical for the `TryFrom` cascade (the cascade maps
their display text back to the same slots), whose strings and object keys
are free of quotes and backslashes, and whose objects are HashMap-backed
with String keys and distinct keys, parsing the indented JSON serialization
returns exactly the original value:
`payload_to_value (v.to_json Indented) = Ok v`. -/
theorem json_round_trip (v : Value) (hv : jsonShaped v = true) :
    payload_to_value (v.to_json .Indented) = Except.ok v :=
  round_trip_shaped v hv

theorem json_round_trip_witness :
    jsonShaped (Value.array [Value.null, Value.boolean true,
      Value.number { i32 := some 7 }, Value.string "hi",
      Value.object Backing.hashMap [(ValueKey.string "k", Value.string "x")]]) = true ∧
    payload_to_value ((Value.array [Value.null, Value.boolean true,
      Value.number { i32 := some 7 }, Value.string "hi",
      Value.object Backing.hashMap
        [(ValueKey.string "k", Value.string "x")]]).to_json .Indented) =
      Except.ok (Value.array [Value.null, Value.boolean true,
        Value.number { i32 := some 7 }, Value.string "hi",
        Value.object Backing.hashMap [(ValueKey.string "k", Value.string "x")]]) :=
  ⟨by rfl, json_round_trip _ (by rfl)⟩

end Valu3
